import Mathlib

/-!
# cucim Python binding (`python/pybind11/cucim_py.cpp`)

A shallow embedding of the binding functions `py_read_region`, `py_metadata`,
`py_resolutions`, `get_array_interface` and the helper `vector2pytuple`,
followed by the properties established about them.

Conventions

* A keyword name is a `std::string` given as the list of its bytes, a byte
  being a `Fin 256`; a `std::string` that is only passed on is a `String`.
* A C `int` is an `Int`; the bitwise operators act on its 32-bit two's
  complement pattern.  Whether plain `char` is signed is implementation
  defined, so it is the parameter `char_signed` wherever a `char` is compared.
* A C++ exception is the `Except.error` result.
* `cuimg.read_region(...)` is a call into the core library: `py_read_region`
  is embedded as the function from its arguments to the argument tuple of
  that one call, whose result it returns unchanged.
-/

set_option autoImplicit false

namespace cucim

/-! ## Machine integers and characters -/

/-- One byte of a `std::string`. -/
abbrev Byte := Fin 256

/-- The value of a 32-bit two's complement pattern as a C `int`. -/
def int_of_u32 (n : Nat) : Int :=
  if n % 2 ^ 32 < 2 ^ 31 then ((n % 2 ^ 32 : Nat) : Int) else ((n % 2 ^ 32 : Nat) : Int) - 2 ^ 32

/-- The 32-bit two's complement pattern of a C `int`. -/
def u32_of_int (v : Int) : Nat := (v % 2 ^ 32).toNat

/-- The C operator `a & b` on `int`. -/
def int_and (a b : Int) : Int := int_of_u32 (Nat.land (u32_of_int a) (u32_of_int b))

/-- The C operator `~a` on `int`. -/
def int_not (a : Int) : Int := -a - 1

/-- The value of a `char` holding the byte `b`: `b - 256` for the upper half
when `char` is signed, `b` otherwise. -/
def char_of_byte (char_signed : Bool) (b : Nat) : Int :=
  if char_signed && decide (128 ≤ b % 256) then ((b % 256 : Nat) : Int) - 256
  else ((b % 256 : Nat) : Int)

/-- Conversion of an `int` to `char` (the low eight bits are kept). -/
def char_of_int (char_signed : Bool) (v : Int) : Int :=
  char_of_byte char_signed (v % 256).toNat

/-- Conversion `int` to `int64_t`. -/
def int64_of_int (v : Int) : Int := v

/-! ## Errors -/

/-- The two messages `py_read_region` formats, each carrying the key it names. -/
inductive Message where
  /-- Text "Argument name for Dimension should be a single character but (key) is used." -/
  | single_character (key : List Byte)
  /-- Text "Dimension character should be an alphabet but (key) is used." -/
  | alphabet (key : List Byte)
  deriving DecidableEq, Repr

/-- Exceptions that can leave the embedded functions. -/
inductive Error where
  /-- Exception `std::invalid_argument` thrown by `py_read_region`. -/
  | invalid_argument (what : Message)
  /-- Exception `pybind11::cast_error` of a failed `py::cast`. -/
  | cast_error
  /-- The `InvalidDimensionLabel` failure of the specification (section 4.1). -/
  | InvalidDimensionLabel (c : Int)
  /-- The `DuplicateDimensionLabel` failure of the specification (section 4.1). -/
  | DuplicateDimensionLabel (c : Int)
  /-- Exception `json::type_error` with its numeric id. -/
  | type_error (id : Nat)
  /-- Exception `json::parse_error`. -/
  | parse_error
  /-- The `LevelOutOfRange` failure of the specification (section 4.2). -/
  | LevelOutOfRange (level : Nat)
  deriving DecidableEq, Repr

deriving instance DecidableEq for Except

/-! ## `py_read_region` -/

/-- Modelled from the spec: `io::Device`, whose declaration is in a header
outside this file; section 9 describes it as the tagged variant of the host
and an accelerator of some kind and index. -/
inductive Device where
  | host
  | accelerator (kind index : Nat)
  deriving DecidableEq, Repr

/-- The arguments of the call `cuimg.read_region(location, size, level, indices,
device, buffer, shm_name)`; `buffer = none` is `nullptr`. -/
structure ReadRegionCall (D : Type) where
  location : List Int
  size : List Int
  level : Int
  indices : D
  device : Device
  buffer : Option Nat
  shm_name : String

/-- The conversion `py::cast<int>(item.second)` of a Python integer, which
fails when the integer is not representable as `int`. -/
def py_cast_int (v : Int) : Except Error Int :=
  if -2 ^ 31 ≤ v ∧ v < 2 ^ 31 then pure v else throw Error.cast_error

/-- Line 284, `char key_char = key[0] & ~32`: the byte is read as a `char`,
promoted to `int`, combined with `~32`, and the result converted to `char`. -/
def key_char_of (char_signed : Bool) (c : Byte) : Int :=
  char_of_int char_signed (int_and (char_of_byte char_signed c.val) (int_not 32))

/-- Lines 279-289: the size test on the key, `key[0] & ~32` stored in a `char`,
and the range test against `A` (65) and `Z` (90). -/
def dim_key_char (char_signed : Bool) (key : List Byte) : Except Error Int :=
  match key with
  | [c] =>
    let key_char := key_char_of char_signed c
    if key_char < 65 ∨ key_char > 90 then
      throw (Error.invalid_argument (Message.alphabet key))
    else
      pure key_char
  | _ => throw (Error.invalid_argument (Message.single_character key))

/-- The loop `for (auto item : kwargs)` of lines 274-295; the second argument
is the vector `indices_args` built so far.  A value is a Python integer. -/
def kwargs_loop (char_signed : Bool) :
    List (List Byte × Int) → List (Int × Int) → Except Error (List (Int × Int))
  | [], indices_args => pure indices_args
  | (key, item_second) :: rest, indices_args => do
    let value ← py_cast_int item_second
    let key_char ← dim_key_char char_signed key
    kwargs_loop char_signed rest (indices_args ++ [(key_char, int64_of_int value)])

/-- The function `py_read_region`.  The type `cucim::DimIndices` is declared
outside this file: `D` stands for it, `mk` for its constructor from a vector of
pairs and `dflt` for `DimIndices{}`.  `kwargs = none` is a null handle (the test
`if (kwargs)` is the null test of the handle); `buf = none` is `py::none()`. -/
def py_read_region {D : Type} (mk : List (Int × Int) → Except Error D) (dflt : D)
    (char_signed : Bool) (location size : List Int) (level : Int) (device : Device)
    (buf : Option Nat) (shm_name : String)
    (kwargs : Option (List (List Byte × Int))) : Except Error (ReadRegionCall D) := do
  let _ := buf
  let _ := shm_name
  let indices ←
    match kwargs with
    | some items => do
      let indices_args ← kwargs_loop char_signed items []
      mk indices_args
    | none => pure dflt
  pure { location := location, size := size, level := level, indices := indices,
         device := device, buffer := none, shm_name := "" }

/-! ## The dimension index of the specification -/

/-- Modelled from the spec: the value type `cucim::DimIndices` (DimensionIndex,
section 3), whose declaration is outside this file: an ordered sequence of
labels, each mapped to an integer. -/
structure DimIndices where
  indices : List (Int × Int)
  deriving DecidableEq, Repr

/-- Modelled from the spec: the label normalisation of section 4.1, "upper-cased
by clearing bit 0x20 of its byte value". -/
def DimIndices.normalise (char_signed : Bool) (c : Int) : Int :=
  char_of_int char_signed (int_and c (int_not 32))

/-- Modelled from the spec: the constructor of `cucim::DimIndices` from a
sequence of (label, value) pairs, which is outside this file.  Section 4.1:
validation is performed eagerly at construction; the upper-cased label must lie
in `A`-`Z`, otherwise the construction fails with `InvalidDimensionLabel`;
duplicate labels after normalisation fail with `DuplicateDimensionLabel`.  The
second argument is the sequence accepted so far. -/
def DimIndices.build (char_signed : Bool) :
    List (Int × Int) → List (Int × Int) → Except Error DimIndices
  | [], acc => pure { indices := acc }
  | (c, v) :: rest, acc =>
    let label := DimIndices.normalise char_signed c
    if label < 65 ∨ label > 90 then throw (Error.InvalidDimensionLabel c)
    else if label ∈ acc.map Prod.fst then throw (Error.DuplicateDimensionLabel label)
    else DimIndices.build char_signed rest (acc ++ [(label, v)])

/-- Modelled from the spec: `cucim::DimIndices(init_list)`, see `DimIndices.build`. -/
def DimIndices.ofPairs (char_signed : Bool) (init_list : List (Int × Int)) :
    Except Error DimIndices :=
  DimIndices.build char_signed init_list []

/-- Modelled from the spec: `cucim::DimIndices{}`, the empty index. -/
def DimIndices.empty : DimIndices := { indices := [] }

/-! ## Specification-side vocabulary for dimension keys -/

/-- The byte is an ASCII letter, `a`-`z` or `A`-`Z`. -/
def is_ascii_letter (c : Byte) : Prop :=
  (65 ≤ c.val ∧ c.val ≤ 90) ∨ (97 ≤ c.val ∧ c.val ≤ 122)

instance (c : Byte) : Decidable (is_ascii_letter c) := by
  unfold is_ascii_letter; infer_instance

/-- The upper-case form of an ASCII letter (other bytes are left alone). -/
def ascii_upper (c : Byte) : Int :=
  if 97 ≤ c.val ∧ c.val ≤ 122 then (c.val : Int) - 32 else (c.val : Int)

/-- A key made of exactly one byte, that byte being an ASCII letter. -/
def is_letter_key (key : List Byte) : Prop :=
  ∃ c : Byte, key = [c] ∧ is_ascii_letter c

instance (key : List Byte) : Decidable (is_letter_key key) :=
  match key with
  | [] => isFalse (by rintro ⟨c, h, _⟩; cases h)
  | [c] =>
    if h : is_ascii_letter c then isTrue ⟨c, rfl, h⟩
    else isFalse (by
      rintro ⟨d, hd, hl⟩
      have hcd : c = d := by simpa using hd
      exact h (hcd ▸ hl))
  | _ :: _ :: _ => isFalse (by rintro ⟨c, h, _⟩; simp at h)

/-- The label of a one-letter key: its letter in upper case (0 for any other key). -/
def key_label (key : List Byte) : Int :=
  match key with
  | [c] => ascii_upper c
  | _ => 0

/-- The message naming an offending key: the single-character message unless
the key has exactly one byte, the alphabet message for a one-byte key. -/
def key_message (key : List Byte) : Message :=
  if key.length = 1 then Message.alphabet key else Message.single_character key

/-- The Python integer is representable as a C `int`. -/
def fits_int (v : Int) : Prop := -2 ^ 31 ≤ v ∧ v < 2 ^ 31

instance (v : Int) : Decidable (fits_int v) := by
  unfold fits_int; infer_instance

/-- The pairs (upper-cased label, value) of the keywords, in iteration order. -/
def label_pairs (items : List (List Byte × Int)) : List (Int × Int) :=
  items.map (fun item => (key_label item.1, item.2))

/-! ## Values of the collaborating libraries -/

/-- A C `float`, identified by its bit pattern.  The functions below only pass
such values on (to a JSON number or a Python float); none computes with them. -/
structure CFloat where
  bits : Nat
  deriving DecidableEq, Repr

/-- A value of `nlohmann::json`.  An object is the list of its members, with
pairwise different keys; the order of the list carries no meaning. -/
inductive Json where
  | null
  | bool (b : Bool)
  | number_integer (n : Int)
  | number_float (x : CFloat)
  | string (s : String)
  | array (elements : List Json)
  | object (members : List (String × Json))

/-- A Python object, as far as the binding builds one.  The value `null` is the
unset slot of a tuple that `PyTuple_SET_ITEM` has not filled yet. -/
inductive PyObject where
  | null
  | none
  | bool (b : Bool)
  | int (v : Int)
  | float (x : CFloat)
  | str (s : String)
  | tuple (items : List PyObject)
  | list (items : List PyObject)
  | dict (items : List (String × PyObject))

/-- The member of an object with the given key, if the value is an object that
has one. -/
def Json.get? (j : Json) (key : String) : Option Json :=
  match j with
  | Json.object members => (members.find? (fun m => m.1 == key)).map Prod.snd
  | _ => Option.none

/-- The call `emplace(key, value)` on the map that holds the members of an
object: the member is inserted only if the map has no member with that key. -/
def emplace_members (members : List (String × Json)) (key : String) (value : Json) :
    List (String × Json) :=
  if members.any (fun m => m.1 == key) then members else members ++ [(key, value)]

/-- The call `j.emplace(key, value)` of `nlohmann::json`: it throws
`type_error` 311 unless `j` is null or an object, turns null into the empty
object, and then calls `emplace` on the map of members.  The result is `j`
after the call. -/
def Json.emplace (j : Json) (key : String) (value : Json) : Except Error Json :=
  match j with
  | Json.object members => pure (Json.object (emplace_members members key value))
  | Json.null => pure (Json.object (emplace_members [] key value))
  | _ => throw (Error.type_error 311)

/-- The element that the iterator returned by `j.emplace(key, ...)` refers to,
read from `j` after the call. -/
def Json.element (j : Json) (key : String) : Json :=
  (j.get? key).getD Json.null

/-- The member `key` of the map of members becomes `value`. -/
def assign_members (members : List (String × Json)) (key : String) (value : Json) :
    List (String × Json) :=
  members.map (fun m => if m.1 == key then (m.1, value) else m)

/-- Writing back through the reference obtained from `emplace`: the member
`key` of the object `j` becomes `value`. -/
def Json.assign (j : Json) (key : String) (value : Json) : Json :=
  match j with
  | Json.object members => Json.object (assign_members members key value)
  | other => other

/-! ## The image handle -/

/-- The struct `DLDataType` of DLPack; its fields are `uint8_t`, `uint8_t` and
`uint16_t`. -/
structure DLDataType where
  code : Nat
  bits : Nat
  lanes : Nat
  deriving DecidableEq, Repr

/-- The part of the struct `DLTensor` that the binding reads: `data` is the
address held by the pointer field. -/
structure DLTensor where
  data : Nat
  deriving DecidableEq, Repr

/-- The object returned by `cuimg.container()`: its conversion to `DLTensor*`
(`none` for a null pointer) and the string `numpy_dtype()`. -/
structure DLContainer where
  tensor : Option DLTensor
  numpy_dtype : String
  deriving DecidableEq, Repr

/-- The object returned by `cuimg.resolutions()`, as the three accessors the
binding calls.  The accessor `level_dimension` is outside this file and may
throw; it is kept as an arbitrary function. -/
structure Resolutions where
  level_count : Nat
  level_dimension : Nat → Except Error (List Int)
  level_downsamples : List CFloat

/-- Modelled from the spec: the class `CuImage`, declared in a header outside
this file, as the attributes of ImageHandle in section 3 that the binding
reads through its accessors (`spacing` and `spacing_units` are the accessors
called with their default argument). -/
structure CuImage where
  path : String
  metadata : String
  ndim : Nat
  dims : List String
  shape : List Int
  dtype : DLDataType
  channel_names : List String
  spacing : List CFloat
  spacing_units : List String
  origin : List CFloat
  direction : List CFloat
  coord_sys : String
  resolutions : Resolutions
  associated_images : List String
  device : Device
  container : DLContainer

/-! ## Computations that query the pyramid -/

/-- A computation that may throw and that records, in order, the levels at
which it called `resolutions.level_dimension`: it maps the record so far to its
outcome and the extended record. -/
def Traced (α : Type) : Type := List Nat → Except Error α × List Nat

/-- A computation that returns without a call. -/
def Traced.pure {α : Type} (a : α) : Traced α := fun queried => (Except.ok a, queried)

/-- Sequencing; an exception of the first part ends the computation. -/
def Traced.bind {α β : Type} (m : Traced α) (f : α → Traced β) : Traced β :=
  fun queried =>
    match m queried with
    | (Except.ok a, queried2) => f a queried2
    | (Except.error e, queried2) => (Except.error e, queried2)

instance : Monad Traced where
  pure := Traced.pure
  bind := Traced.bind

/-- A step that queries no level. -/
def Traced.lift {α : Type} (x : Except Error α) : Traced α := fun queried => (x, queried)

/-- The call `resolutions.level_dimension(level)`. -/
def Traced.level_dimension (resolutions : Resolutions) (level : Nat) : Traced (List Int) :=
  fun queried => (resolutions.level_dimension level, queried ++ [level])

/-- Running a computation from the empty record. -/
def Traced.run {α : Type} (m : Traced α) : Except Error α × List Nat := m []

/-- The loop `for (int level = 0; level < level_count; ++level)` of both
`py_metadata` (lines 218-221, `f` the identity) and `py_resolutions` (lines
244-247, `f` the conversion to a tuple), from the given `level` on; `vec` is
`level_dimensions_vec` so far.  The count returned by `level_count()` is taken
to fit an `int`, so that the counter `level` does not overflow. -/
def level_dimensions_loop {β : Type} (f : List Int → β) (resolutions : Resolutions)
    (level_count : Nat) (level : Nat) (vec : List β) : Traced (List β) :=
  if level < level_count then
    Traced.bind (Traced.level_dimension resolutions level) (fun dimension =>
      level_dimensions_loop f resolutions level_count (level + 1) (vec ++ [f dimension]))
  else
    Traced.pure vec
termination_by level_count - level

/-! ## `py_metadata` -/

/-- Conversion of a `std::string` to `json`. -/
def Json.of_string (s : String) : Json := Json.string s

/-- Conversion of a vector of strings to `json`. -/
def Json.of_strings (v : List String) : Json := Json.array (v.map Json.string)

/-- Conversion of a vector of integers to `json`. -/
def Json.of_ints (v : List Int) : Json := Json.array (v.map Json.number_integer)

/-- Conversion of a vector of `float` to `json`. -/
def Json.of_floats (v : List CFloat) : Json := Json.array (v.map Json.number_float)

/-- The object built on line 202 from the three fields of the `DLDataType`. -/
def Json.of_dtype (dtype : DLDataType) : Json :=
  Json.object [("code", Json.number_integer dtype.code),
               ("bits", Json.number_integer dtype.bits),
               ("lanes", Json.number_integer dtype.lanes)]

/-- The function `py_metadata`.  The parser `json::parse` belongs to the JSON
library and is the parameter `parse`.  Each `emplace` acts on the value the
reference denotes; the two references `cucim_metadata` and
`resolutions_metadata` are written back where the C++ code leaves their scope. -/
def py_metadata (parse : String → Except Error Json) (cuimg : CuImage) : Traced Json := do
  let metadata := cuimg.metadata
  let json_obj ← Traced.lift (parse (if metadata.isEmpty then "{}" else metadata))
  let json_obj ← Traced.lift (json_obj.emplace "cucim" (Json.object []))
  let cucim_metadata := json_obj.element "cucim"
  let cucim_metadata ← Traced.lift (cucim_metadata.emplace "path" (Json.of_string cuimg.path))
  let cucim_metadata ← Traced.lift (cucim_metadata.emplace "ndim" (Json.number_integer cuimg.ndim))
  let cucim_metadata ← Traced.lift (cucim_metadata.emplace "dims" (Json.of_strings cuimg.dims))
  let cucim_metadata ← Traced.lift (cucim_metadata.emplace "shape" (Json.of_ints cuimg.shape))
  let cucim_metadata ← Traced.lift (cucim_metadata.emplace "dtype" (Json.of_dtype cuimg.dtype))
  let cucim_metadata ←
    Traced.lift (cucim_metadata.emplace "channel_names" (Json.of_strings cuimg.channel_names))
  let cucim_metadata ← Traced.lift (cucim_metadata.emplace "spacing" (Json.of_floats cuimg.spacing))
  let cucim_metadata ←
    Traced.lift (cucim_metadata.emplace "spacing_units" (Json.of_strings cuimg.spacing_units))
  let cucim_metadata ← Traced.lift (cucim_metadata.emplace "origin" (Json.of_floats cuimg.origin))
  let cucim_metadata ←
    Traced.lift (cucim_metadata.emplace "direction" (Json.of_floats cuimg.direction))
  let cucim_metadata ←
    Traced.lift (cucim_metadata.emplace "coord_sys" (Json.of_string cuimg.coord_sys))
  let resolutions := cuimg.resolutions
  let cucim_metadata ← Traced.lift (cucim_metadata.emplace "resolutions" (Json.object []))
  let resolutions_metadata := cucim_metadata.element "resolutions"
  let level_count := resolutions.level_count
  let resolutions_metadata ←
    Traced.lift (resolutions_metadata.emplace "level_count" (Json.number_integer level_count))
  let level_dimensions_vec ← level_dimensions_loop id resolutions level_count 0 []
  let resolutions_metadata ←
    Traced.lift (resolutions_metadata.emplace "level_dimensions"
      (Json.array (level_dimensions_vec.map Json.of_ints)))
  let resolutions_metadata ←
    Traced.lift (resolutions_metadata.emplace "level_downsamples"
      (Json.of_floats resolutions.level_downsamples))
  let cucim_metadata := cucim_metadata.assign "resolutions" resolutions_metadata
  let cucim_metadata ←
    Traced.lift (cucim_metadata.emplace "associated_images"
      (Json.of_strings cuimg.associated_images))
  pure (json_obj.assign "cucim" cucim_metadata)

/-! ## `vector2pytuple`, `py_resolutions` and `get_array_interface` -/

/-- The function template `vector2pytuple`; `cast` is the conversion
`make_caster<PT>::cast` of one element.  The tuple is created with
`vec.size()` unset slots, the converted elements are collected in `args`, and
the second loop stores them at the positions `counter++`. -/
def vector2pytuple {T : Type} (cast : T → PyObject) (vec : List T) : PyObject :=
  let result := List.replicate vec.length PyObject.null
  let args := vec.foldl (fun args arg_value => args ++ [cast arg_value]) []
  let filled := args.foldl
    (fun (state : List PyObject × Nat) arg_value =>
      (state.1.set state.2 arg_value, state.2 + 1))
    (result, 0)
  PyObject.tuple filled.1

/-- The function `py_resolutions`. -/
def py_resolutions (cuimg : CuImage) : Traced PyObject := do
  let resolutions := cuimg.resolutions
  let level_count := resolutions.level_count
  if resolutions.level_count = 0 then
    pure (PyObject.dict [("level_count", PyObject.int 0),
                         ("level_dimensions", PyObject.tuple []),
                         ("level_downsamples", PyObject.tuple [])])
  else do
    let level_dimensions_vec ←
      level_dimensions_loop (vector2pytuple PyObject.int) resolutions level_count 0 []
    let level_dimensions := vector2pytuple id level_dimensions_vec
    let level_downsamples := vector2pytuple PyObject.float resolutions.level_downsamples
    pure (PyObject.dict [("level_count", PyObject.int level_count),
                         ("level_dimensions", level_dimensions),
                         ("level_downsamples", level_downsamples)])

/-- The function `get_array_interface`; the address is converted with
`reinterpret_cast<uint64_t>`. -/
def get_array_interface (cuimg : CuImage) : PyObject :=
  match cuimg.container.tensor with
  | Option.none => PyObject.dict []
  | Option.some tensor =>
    let type_str := cuimg.container.numpy_dtype
    let descr := PyObject.list ([] ++ [PyObject.tuple [PyObject.str "", PyObject.str type_str]])
    let shape := vector2pytuple PyObject.int cuimg.shape
    PyObject.dict [("data", PyObject.tuple [PyObject.int (tensor.data % 2 ^ 64 : Nat), PyObject.bool false]),
                   ("strides", PyObject.none),
                   ("descr", descr),
                   ("typestr", PyObject.str type_str),
                   ("shape", shape),
                   ("version", PyObject.int 3)]

end cucim

namespace cucim

/-! ## Vocabulary for the level queries, and sample values -/

/-- Every level the computation adds to the record is below `n`. -/
def Traced.queries_below {α : Type} (m : Traced α) (n : Nat) : Prop :=
  ∀ queried, ∀ l ∈ (m queried).2, l ∈ queried ∨ l < n

/-- The handle with another accessor `level_dimension` and nothing else changed. -/
def CuImage.with_level_dimension (cuimg : CuImage) (g : Nat → Except Error (List Int)) :
    CuImage :=
  { cuimg with resolutions := { cuimg.resolutions with level_dimension := g } }

/-- The handle with another device and nothing else changed. -/
def CuImage.with_device (cuimg : CuImage) (device : Device) : CuImage :=
  { cuimg with device := device }

/-- The `resolutions` object of the standardized fields, for a pyramid whose
level `i` has the dimensions `dim i`. -/
def resolutions_fields (resolutions : Resolutions) (dim : Nat → List Int) :
    List (String × Json) :=
  [("level_count", Json.number_integer resolutions.level_count),
   ("level_dimensions",
      Json.array ((List.range resolutions.level_count).map (fun i => Json.of_ints (dim i)))),
   ("level_downsamples", Json.of_floats resolutions.level_downsamples)]

/-- The standardized fields computed from the handle, other than `resolutions`. -/
def standard_fields (cuimg : CuImage) : List (String × Json) :=
  [("path", Json.of_string cuimg.path),
   ("ndim", Json.number_integer cuimg.ndim),
   ("dims", Json.of_strings cuimg.dims),
   ("shape", Json.of_ints cuimg.shape),
   ("dtype", Json.of_dtype cuimg.dtype),
   ("channel_names", Json.of_strings cuimg.channel_names),
   ("spacing", Json.of_floats cuimg.spacing),
   ("spacing_units", Json.of_strings cuimg.spacing_units),
   ("origin", Json.of_floats cuimg.origin),
   ("direction", Json.of_floats cuimg.direction),
   ("coord_sys", Json.of_string cuimg.coord_sys),
   ("associated_images", Json.of_strings cuimg.associated_images)]

/-- The members an `emplace` on the value starts from: none for a missing or
null value, those of an object; any other value makes `emplace` throw. -/
def native_members (j : Option Json) : Option (List (String × Json)) :=
  match j with
  | Option.none => some []
  | Option.some Json.null => some []
  | Option.some (Json.object members) => some members
  | Option.some _ => Option.none

/-- The members of `resolutions_metadata` when `py_metadata` returns, given the
members `rm` it starts from (lines 215, 222 and 223). -/
def merged_resolutions (rm : List (String × Json)) (resolutions : Resolutions)
    (dim : Nat → List Int) : List (String × Json) :=
  emplace_members
    (emplace_members
      (emplace_members rm "level_count" (Json.number_integer resolutions.level_count))
      "level_dimensions"
      (Json.array ((List.range resolutions.level_count).map (fun i => Json.of_ints (dim i)))))
    "level_downsamples" (Json.of_floats resolutions.level_downsamples)

/-- The members of `cucim_metadata` after line 212, given the members `cm` it
starts from (lines 195 to 212). -/
def merged_cucim_head (cm : List (String × Json)) (cuimg : CuImage) : List (String × Json) :=
  emplace_members (emplace_members (emplace_members (emplace_members (emplace_members
    (emplace_members (emplace_members (emplace_members (emplace_members (emplace_members
    (emplace_members (emplace_members cm
      "path" (Json.of_string cuimg.path))
      "ndim" (Json.number_integer cuimg.ndim))
      "dims" (Json.of_strings cuimg.dims))
      "shape" (Json.of_ints cuimg.shape))
      "dtype" (Json.of_dtype cuimg.dtype))
      "channel_names" (Json.of_strings cuimg.channel_names))
      "spacing" (Json.of_floats cuimg.spacing))
      "spacing_units" (Json.of_strings cuimg.spacing_units))
      "origin" (Json.of_floats cuimg.origin))
      "direction" (Json.of_floats cuimg.direction))
      "coord_sys" (Json.of_string cuimg.coord_sys))
      "resolutions" (Json.object [])

/-- The members of `cucim_metadata` when `py_metadata` returns, given the
members `cm` it starts from and the members `rm` its `resolutions` member starts
from. -/
def merged_cucim (cm rm : List (String × Json)) (cuimg : CuImage) (dim : Nat → List Int) :
    List (String × Json) :=
  emplace_members
    (assign_members (merged_cucim_head cm cuimg) "resolutions"
      (Json.object (merged_resolutions rm cuimg.resolutions dim)))
    "associated_images" (Json.of_strings cuimg.associated_images)

/-- The pyramid of the scenario in section 8 of the specification: two levels
with downsamples 1.0 and 2.0 (given by their bit patterns). -/
def sample_resolutions : Resolutions :=
  { level_count := 2
    level_dimension := fun level =>
      match level with
      | 0 => Except.ok [1000, 2000, 3]
      | 1 => Except.ok [500, 1000, 3]
      | l => Except.error (Error.LevelOutOfRange l)
    level_downsamples := [{ bits := 0x3F800000 }, { bits := 0x40000000 }] }

/-- A loaded host image over `sample_resolutions`, with empty raw metadata. -/
def sample_image : CuImage :=
  { path := "image.tif"
    metadata := ""
    ndim := 3
    dims := ["Y", "X", "C"]
    shape := [1000, 2000, 3]
    dtype := { code := 1, bits := 8, lanes := 1 }
    channel_names := ["R", "G", "B"]
    spacing := [{ bits := 0x3F800000 }, { bits := 0x3F800000 }, { bits := 0x3F800000 }]
    spacing_units := ["", "", ""]
    origin := [{ bits := 0 }, { bits := 0 }, { bits := 0 }]
    direction := [{ bits := 0x3F800000 }, { bits := 0 }, { bits := 0x3F800000 }]
    coord_sys := "LPS"
    resolutions := sample_resolutions
    associated_images := ["thumbnail"]
    device := Device.host
    container := { tensor := some { data := 140737488355328 }, numpy_dtype := "|u1" } }

/-- A raw metadata text whose document already has a `cucim` member. -/
def native_text : String := "\x7b\"cucim\": \x7b\"path\": \"native\"\x7d\x7d"

/-- A parser defined on the two texts used below: the empty object, and
`native_text`. -/
def sample_parse (text : String) : Except Error Json :=
  if text = "{}" then Except.ok (Json.object [])
  else if text = native_text then
    Except.ok (Json.object [("cucim", Json.object [("path", Json.string "native")])])
  else Except.error Error.parse_error

/-- The sample image with `native_text` as its raw metadata. -/
def native_image : CuImage := { sample_image with metadata := native_text }

/-- A flat image: no pyramid level and no materialized buffer. -/
def flat_image : CuImage :=
  { sample_image with
    resolutions := { level_count := 0
                     level_dimension := fun l => Except.error (Error.LevelOutOfRange l)
                     level_downsamples := [] }
    container := { tensor := none, numpy_dtype := "|u1" } }

end cucim

/-! # Properties -/

namespace cucim

/-! ## Dimension keys -/

theorem dim_key_char_byte : ∀ (s : Bool) (c : Byte),
    ((65 ≤ key_char_of s c ∧ key_char_of s c ≤ 90) ↔ is_ascii_letter c) ∧
    (is_ascii_letter c → key_char_of s c = ascii_upper c) ∧
    (is_ascii_letter c → dim_key_char s [c] = Except.ok (ascii_upper c)) ∧
    (¬ is_ascii_letter c →
      dim_key_char s [c] = Except.error (Error.invalid_argument (Message.alphabet [c]))) := by
  set_option maxRecDepth 100000 in decide

theorem dim_key_char_letter_key (s : Bool) (key : List Byte) (h : is_letter_key key) :
    dim_key_char s key = Except.ok (key_label key) := by
  obtain ⟨c, rfl, hc⟩ := h
  exact (dim_key_char_byte s c).2.2.1 hc

theorem dim_key_char_not_letter_key (s : Bool) (key : List Byte) (h : ¬ is_letter_key key) :
    dim_key_char s key = Except.error (Error.invalid_argument (key_message key)) := by
  match key, h with
  | [], _ => rfl
  | [c], h =>
    have hc : ¬ is_ascii_letter c := fun hl => h ⟨c, rfl, hl⟩
    exact (dim_key_char_byte s c).2.2.2 hc
  | _ :: _ :: _, _ => rfl

theorem py_cast_int_fits (v : Int) (h : fits_int v) : py_cast_int v = Except.ok v := by
  unfold fits_int at h
  unfold py_cast_int
  rw [if_pos h]
  rfl

theorem key_label_range (key : List Byte) (h : is_letter_key key) :
    65 ≤ key_label key ∧ key_label key ≤ 90 := by
  obtain ⟨c, rfl, hc⟩ := h
  have h1 := (dim_key_char_byte true c).1.2 hc
  have h2 := (dim_key_char_byte true c).2.1 hc
  simp only [key_label]
  rw [← h2]
  exact h1

/-- With letter keys and representable values the loop appends the label pairs. -/
theorem kwargs_loop_valid (s : Bool) (items : List (List Byte × Int))
    (hk : ∀ item ∈ items, is_letter_key item.1) (hv : ∀ item ∈ items, fits_int item.2)
    (acc : List (Int × Int)) :
    kwargs_loop s items acc = Except.ok (acc ++ label_pairs items) := by
  induction items generalizing acc with
  | nil => simp [kwargs_loop, label_pairs, pure, Except.pure]
  | cons item rest ih =>
    obtain ⟨key, v⟩ := item
    have hkey : is_letter_key key := hk (key, v) (List.mem_cons_self _ _)
    have hval : fits_int v := hv (key, v) (List.mem_cons_self _ _)
    have hk2 : ∀ item ∈ rest, is_letter_key item.1 :=
      fun item hi => hk item (List.mem_cons_of_mem _ hi)
    have hv2 : ∀ item ∈ rest, fits_int item.2 :=
      fun item hi => hv item (List.mem_cons_of_mem _ hi)
    simp only [kwargs_loop, py_cast_int_fits v hval, dim_key_char_letter_key s key hkey,
      bind, Except.bind, int64_of_int]
    rw [ih hk2 hv2]
    simp [label_pairs]

/-- The loop stops at the first key that is not a single letter. -/
theorem kwargs_loop_invalid (s : Bool) (pre post : List (List Byte × Int)) (key : List Byte)
    (v : Int) (hk : ∀ item ∈ pre, is_letter_key item.1) (hv : ∀ item ∈ pre, fits_int item.2)
    (hval : fits_int v) (hkey : ¬ is_letter_key key) (acc : List (Int × Int)) :
    kwargs_loop s (pre ++ (key, v) :: post) acc =
      Except.error (Error.invalid_argument (key_message key)) := by
  induction pre generalizing acc with
  | nil =>
    simp only [List.nil_append, kwargs_loop, py_cast_int_fits v hval,
      dim_key_char_not_letter_key s key hkey, bind, Except.bind]
  | cons item rest ih =>
    obtain ⟨key2, v2⟩ := item
    have hkey2 : is_letter_key key2 := hk (key2, v2) (List.mem_cons_self _ _)
    have hval2 : fits_int v2 := hv (key2, v2) (List.mem_cons_self _ _)
    have hk2 : ∀ item ∈ rest, is_letter_key item.1 :=
      fun item hi => hk item (List.mem_cons_of_mem _ hi)
    have hv2 : ∀ item ∈ rest, fits_int item.2 :=
      fun item hi => hv item (List.mem_cons_of_mem _ hi)
    simp only [List.cons_append, kwargs_loop, py_cast_int_fits v2 hval2,
      dim_key_char_letter_key s key2 hkey2, bind, Except.bind]
    exact ih hk2 hv2 _

theorem py_cast_int_not_fits (v : Int) (h : ¬ fits_int v) :
    py_cast_int v = Except.error Error.cast_error := by
  unfold fits_int at h
  unfold py_cast_int
  rw [if_neg h]
  rfl

/-- The loop stops with the cast error at the first value that is not
representable as `int`, whatever the key of that keyword is. -/
theorem kwargs_loop_cast (s : Bool) (pre post : List (List Byte × Int)) (key : List Byte)
    (v : Int) (hk : ∀ item ∈ pre, is_letter_key item.1) (hv : ∀ item ∈ pre, fits_int item.2)
    (hval : ¬ fits_int v) (acc : List (Int × Int)) :
    kwargs_loop s (pre ++ (key, v) :: post) acc = Except.error Error.cast_error := by
  induction pre generalizing acc with
  | nil =>
    simp only [List.nil_append, kwargs_loop, py_cast_int_not_fits v hval, bind, Except.bind]
  | cons item rest ih =>
    obtain ⟨key2, v2⟩ := item
    have hkey2 : is_letter_key key2 := hk (key2, v2) (List.mem_cons_self _ _)
    have hval2 : fits_int v2 := hv (key2, v2) (List.mem_cons_self _ _)
    have hk2 : ∀ item ∈ rest, is_letter_key item.1 :=
      fun item hi => hk item (List.mem_cons_of_mem _ hi)
    have hv2 : ∀ item ∈ rest, fits_int item.2 :=
      fun item hi => hv item (List.mem_cons_of_mem _ hi)
    simp only [List.cons_append, kwargs_loop, py_cast_int_fits v2 hval2,
      dim_key_char_letter_key s key2 hkey2, bind, Except.bind]
    exact ih hk2 hv2 _

/-- The call fails at the first keyword, in iteration order, whose value is not
representable as `int` or whose key is not a single letter: with the cast error
in the first case (the cast of line 277 precedes the key tests), with the
invalid-argument error naming the key in the second; the constructor of the
dimension indices is not reached. -/
theorem py_read_region_offending {D : Type} (mk : List (Int × Int) → Except Error D)
    (dflt : D) (char_signed : Bool) (location size : List Int) (level : Int)
    (device : Device) (buf : Option Nat) (shm_name : String)
    (pre post : List (List Byte × Int)) (key : List Byte) (v : Int)
    (hpre : ∀ item ∈ pre, is_letter_key item.1 ∧ fits_int item.2) :
    (¬ fits_int v →
      py_read_region mk dflt char_signed location size level device buf shm_name
          (some (pre ++ (key, v) :: post)) = Except.error Error.cast_error) ∧
    (fits_int v → ¬ is_letter_key key →
      py_read_region mk dflt char_signed location size level device buf shm_name
          (some (pre ++ (key, v) :: post)) =
        Except.error (Error.invalid_argument (key_message key))) := by
  have hk : ∀ item ∈ pre, is_letter_key item.1 := fun item hi => (hpre item hi).1
  have hv : ∀ item ∈ pre, fits_int item.2 := fun item hi => (hpre item hi).2
  constructor
  · intro hval
    simp only [py_read_region, kwargs_loop_cast char_signed pre post key v hk hv hval [],
      bind, Except.bind]
  · intro hval hkey
    simp only [py_read_region, kwargs_loop_invalid char_signed pre post key v hk hv hval hkey [],
      bind, Except.bind]

/-- Either every keyword has a one-letter key and a representable value, or
there is a first keyword that has not. -/
theorem first_offending (items : List (List Byte × Int)) :
    (∀ item ∈ items, is_letter_key item.1 ∧ fits_int item.2) ∨
    ∃ pre key v post, items = pre ++ (key, v) :: post ∧
      (∀ item ∈ pre, is_letter_key item.1 ∧ fits_int item.2) ∧
      ¬ (is_letter_key key ∧ fits_int v) := by
  induction items with
  | nil => exact Or.inl (fun item hi => absurd hi (List.not_mem_nil item))
  | cons item rest ih =>
    obtain ⟨key, v⟩ := item
    by_cases hhead : is_letter_key key ∧ fits_int v
    · rcases ih with hall | ⟨pre, key2, v2, post, hrest, hpre, hbad⟩
      · left
        intro item hi
        rcases List.mem_cons.mp hi with rfl | hi
        · exact hhead
        · exact hall item hi
      · right
        refine ⟨(key, v) :: pre, key2, v2, post, by rw [hrest]; rfl, ?_, hbad⟩
        intro item hi
        rcases List.mem_cons.mp hi with rfl | hi
        · exact hhead
        · exact hpre item hi
    · right
      exact ⟨[], key, v, rest, rfl, fun item hi => absurd hi (List.not_mem_nil item), hhead⟩

/-- C1: for every byte `c` used as a one-byte dimension keyword of
`py_read_region`, whatever the signedness of `char`, the normalised value
`c & ~32` lies in `A`..`Z` (65..90) if and only if `c` is an ASCII letter; for a
letter it is the upper-case form of `c` and the key is accepted with that
label; for every other byte (digits, punctuation, underscore, bytes from 0x80
on) the key is rejected with the `std::invalid_argument` carrying the
"should be an alphabet" message, and so is a call whose only keyword it is. -/
theorem key_char_letter_iff {D : Type} (mk : List (Int × Int) → Except Error D) (dflt : D)
    (char_signed : Bool) (c : Byte) (location size : List Int) (level : Int)
    (device : Device) (buf : Option Nat) (shm_name : String) (v : Int) :
    ((65 ≤ key_char_of char_signed c ∧ key_char_of char_signed c ≤ 90) ↔ is_ascii_letter c) ∧
    (is_ascii_letter c →
      key_char_of char_signed c = ascii_upper c ∧
      dim_key_char char_signed [c] = Except.ok (ascii_upper c)) ∧
    (¬ is_ascii_letter c →
      dim_key_char char_signed [c] =
        Except.error (Error.invalid_argument (Message.alphabet [c])) ∧
      (fits_int v →
        py_read_region mk dflt char_signed location size level device buf shm_name
            (some [([c], v)]) =
          Except.error (Error.invalid_argument (Message.alphabet [c])))) := by
  have h := dim_key_char_byte char_signed c
  refine ⟨h.1, fun hl => ⟨h.2.1 hl, h.2.2.1 hl⟩, fun hn => ⟨h.2.2.2 hn, fun hv => ?_⟩⟩
  simp only [py_read_region, kwargs_loop, py_cast_int_fits v hv, h.2.2.2 hn, bind, Except.bind]

/-- The byte `[` (91), which lies between the two letter ranges, is rejected
when `char` is signed, and the letter `x` (120) is accepted as `X` (88). -/
theorem key_char_letter_iff_witness :
    (dim_key_char true [91] = Except.error (Error.invalid_argument (Message.alphabet [91])) ∧
      py_read_region (DimIndices.ofPairs true) DimIndices.empty true [] [] 0 Device.host none ""
          (some [([91], 7)]) =
        Except.error (Error.invalid_argument (Message.alphabet [91]))) ∧
    (key_char_of true 120 = 88 ∧ dim_key_char true [120] = Except.ok 88) :=
  ⟨⟨((key_char_letter_iff (DimIndices.ofPairs true) DimIndices.empty true 91 [] [] 0
        Device.host none "" 7).2.2 (by decide)).1,
    ((key_char_letter_iff (DimIndices.ofPairs true) DimIndices.empty true 91 [] [] 0
        Device.host none "" 7).2.2 (by decide)).2 (by decide)⟩,
   (key_char_letter_iff (DimIndices.ofPairs true) DimIndices.empty true 120 [] [] 0
        Device.host none "" 7).2.1 (by decide)⟩

/-- C2 (as amended): for every call of `py_read_region` whose keywords carry
Python integers: if every key is exactly one byte long, that byte being an
ASCII letter, and every value is representable as a C `int`, the constructor of
the dimension indices receives exactly the pairs (upper-cased label, value) in
keyword iteration order, and what it builds is the indices argument of the
call of `read_region` (for no keywords it receives the empty vector, and for a
null `kwargs` the indices are `DimIndices{}`); otherwise the call fails, before
the constructor and `read_region` are reached, at the first keyword in
iteration order whose value is not representable as `int` or whose key is not a
single letter: with the `pybind11::cast_error` when the value of that keyword
is not representable, whatever its key, and else with the
`std::invalid_argument` naming its key. -/
theorem py_read_region_keywords {D : Type} (mk : List (Int × Int) → Except Error D) (dflt : D)
    (char_signed : Bool) (location size : List Int) (level : Int) (device : Device)
    (buf : Option Nat) (shm_name : String) (items : List (List Byte × Int)) :
    ((∀ item ∈ items, is_letter_key item.1 ∧ fits_int item.2) →
      (py_read_region mk dflt char_signed location size level device buf shm_name
          (some items)).map (fun call => call.indices) = mk (label_pairs items) ∧
      ∀ indices, mk (label_pairs items) = Except.ok indices →
        ∃ call, py_read_region mk dflt char_signed location size level device buf shm_name
            (some items) = Except.ok call ∧ call.indices = indices ∧
          call.location = location ∧ call.size = size ∧ call.level = level ∧
          call.device = device) ∧
    (items = [] →
      (py_read_region mk dflt char_signed location size level device buf shm_name
          (some items)).map (fun call => call.indices) = mk []) ∧
    ((py_read_region mk dflt char_signed location size level device buf shm_name
          none).map (fun call => call.indices) = Except.ok dflt) ∧
    (∀ pre key v post, items = pre ++ (key, v) :: post →
      (∀ item ∈ pre, is_letter_key item.1 ∧ fits_int item.2) →
      (¬ fits_int v →
        py_read_region mk dflt char_signed location size level device buf shm_name
            (some items) = Except.error Error.cast_error) ∧
      (fits_int v → ¬ is_letter_key key →
        py_read_region mk dflt char_signed location size level device buf shm_name
            (some items) = Except.error (Error.invalid_argument (key_message key)))) ∧
    ((∀ item ∈ items, is_letter_key item.1 ∧ fits_int item.2) ∨
      ∃ pre key v post, items = pre ++ (key, v) :: post ∧
        (∀ item ∈ pre, is_letter_key item.1 ∧ fits_int item.2) ∧
        ¬ (is_letter_key key ∧ fits_int v)) := by
  refine ⟨fun hvalid => ?_, ?_, ?_, ?_, first_offending items⟩
  · have hloop := kwargs_loop_valid char_signed items (fun item hi => (hvalid item hi).1)
      (fun item hi => (hvalid item hi).2) []
    simp only [List.nil_append] at hloop
    constructor
    · simp only [py_read_region, hloop, bind, Except.bind]
      cases mk (label_pairs items) <;> rfl
    · intro indices hmk
      refine ⟨{ location := location, size := size, level := level, indices := indices,
                device := device, buffer := none, shm_name := "" }, ?_, rfl, rfl, rfl, rfl, rfl⟩
      simp only [py_read_region, hloop, hmk, bind, Except.bind]
      rfl
  · intro hnil
    subst hnil
    simp only [py_read_region, kwargs_loop, bind, Except.bind, pure, Except.pure]
    cases mk [] <;> rfl
  · rfl
  · intro pre key v post hitems hpre
    subst hitems
    exact py_read_region_offending mk dflt char_signed location size level device buf shm_name
      pre post key v hpre

/-- The keywords `y=3, X=5` give the pairs `(Y, 3), (X, 5)`; the keywords
`y=3, xy=5, _=1` fail on `xy`; the keywords `ab=1, x=2**40` fail on `ab`, and
the keywords `y=3, ab=2**40` fail on the cast of the second value. -/
theorem py_read_region_keywords_witness :
    (py_read_region (DimIndices.ofPairs true) DimIndices.empty true [0, 0] [4, 4] 0
        Device.host none "" (some [([121], 3), ([88], 5)])).map (fun call => call.indices) =
      Except.ok { indices := [(89, 3), (88, 5)] } ∧
    py_read_region (DimIndices.ofPairs true) DimIndices.empty true [0, 0] [4, 4] 0
        Device.host none "" (some [([121], 3), ([120, 121], 5), ([95], 1)]) =
      Except.error (Error.invalid_argument (Message.single_character [120, 121])) ∧
    py_read_region (DimIndices.ofPairs true) DimIndices.empty true [0, 0] [4, 4] 0
        Device.host none "" (some [([97, 98], 1), ([120], 2 ^ 40)]) =
      Except.error (Error.invalid_argument (Message.single_character [97, 98])) ∧
    py_read_region (DimIndices.ofPairs true) DimIndices.empty true [0, 0] [4, 4] 0
        Device.host none "" (some [([121], 3), ([97, 98], 2 ^ 40)]) =
      Except.error Error.cast_error :=
  ⟨((py_read_region_keywords (DimIndices.ofPairs true) DimIndices.empty true [0, 0] [4, 4] 0
        Device.host none "" [([121], 3), ([88], 5)]).1 (by decide)).1,
   ((py_read_region_keywords (DimIndices.ofPairs true) DimIndices.empty true [0, 0] [4, 4] 0
        Device.host none "" [([121], 3), ([120, 121], 5), ([95], 1)]).2.2.2.1
      [([121], 3)] [120, 121] 5 [([95], 1)] rfl (by decide)).2 (by decide) (by decide),
   ((py_read_region_keywords (DimIndices.ofPairs true) DimIndices.empty true [0, 0] [4, 4] 0
        Device.host none "" [([97, 98], 1), ([120], 2 ^ 40)]).2.2.2.1
      [] [97, 98] 1 [([120], 2 ^ 40)] rfl (by decide)).2 (by decide) (by decide),
   ((py_read_region_keywords (DimIndices.ofPairs true) DimIndices.empty true [0, 0] [4, 4] 0
        Device.host none "" [([121], 3), ([97, 98], 2 ^ 40)]).2.2.2.1
      [([121], 3)] [97, 98] (2 ^ 40) [] rfl (by decide)).1 (by decide)⟩

/-- The keyword `x=2**40` has a one-letter key and an integer value, yet the
call fails with the cast error instead of handing the pair `(X, 2**40)` on, for
the constructor that stores its argument; and the keyword `ab=2**40` has an
offending key, yet the failure is the cast error, not the invalid-argument
error for `ab`. -/
theorem py_read_region_keywords_counterexample :
    (is_letter_key [120] ∧
      py_read_region (fun pairs => Except.ok pairs) [] true [0, 0] [4, 4] 0
          Device.host none "" (some [([120], 2 ^ 40)]) = Except.error Error.cast_error ∧
      (py_read_region (fun pairs => Except.ok pairs) [] true [0, 0] [4, 4] 0
          Device.host none "" (some [([120], 2 ^ 40)])).map (fun call => call.indices) ≠
        Except.ok (label_pairs [([120], 2 ^ 40)])) ∧
    (¬ is_letter_key [97, 98] ∧
      py_read_region (fun pairs => Except.ok pairs) [] true [0, 0] [4, 4] 0
          Device.host none "" (some [([97, 98], 2 ^ 40)]) = Except.error Error.cast_error ∧
      py_read_region (fun pairs => Except.ok pairs) [] true [0, 0] [4, 4] 0
          Device.host none "" (some [([97, 98], 2 ^ 40)]) ≠
        Except.error (Error.invalid_argument (key_message [97, 98]))) := by
  have hx : py_read_region (fun pairs => Except.ok pairs) [] true [0, 0] [4, 4] 0
      Device.host none "" (some [([120], 2 ^ 40)]) = Except.error Error.cast_error := rfl
  have hab : py_read_region (fun pairs => Except.ok pairs) [] true [0, 0] [4, 4] 0
      Device.host none "" (some [([97, 98], 2 ^ 40)]) = Except.error Error.cast_error := rfl
  refine ⟨⟨by decide, hx, ?_⟩, ⟨by decide, hab, ?_⟩⟩
  · rw [hx]
    intro h
    cases h
  · rw [hab]
    intro h
    cases h

/-! ## Duplicate labels -/

/-- When the loop completes, every key was a single letter and every value
representable. -/
theorem kwargs_loop_ok_inv (s : Bool) (items : List (List Byte × Int)) (acc r : List (Int × Int))
    (h : kwargs_loop s items acc = Except.ok r) :
    ∀ item ∈ items, is_letter_key item.1 ∧ fits_int item.2 := by
  induction items generalizing acc with
  | nil => intro item hi; cases hi
  | cons item rest ih =>
    obtain ⟨key, v⟩ := item
    by_cases hv : fits_int v
    · by_cases hk : is_letter_key key
      · simp only [kwargs_loop, py_cast_int_fits v hv, dim_key_char_letter_key s key hk,
          bind, Except.bind] at h
        intro item hi
        rcases List.mem_cons.mp hi with rfl | hi
        · exact ⟨hk, hv⟩
        · exact ih _ h item hi
      · simp only [kwargs_loop, py_cast_int_fits v hv, dim_key_char_not_letter_key s key hk,
          bind, Except.bind] at h
        cases h
    · simp only [kwargs_loop, py_cast_int_not_fits v hv, bind, Except.bind] at h
      cases h

theorem normalise_label (s : Bool) (c : Int) (h : 65 ≤ c ∧ c ≤ 90) :
    DimIndices.normalise s c = c := by
  obtain ⟨h1, h2⟩ := h
  interval_cases c <;> cases s <;> rfl

/-- The modelled constructor rejects a sequence of upper-case labels in which
one occurs twice, with the duplicate error for one of the labels given. -/
theorem build_duplicate (s : Bool) (l acc : List (Int × Int))
    (hl : ∀ p ∈ l, 65 ≤ p.1 ∧ p.1 ≤ 90) (hacc : (acc.map Prod.fst).Nodup)
    (hdup : ¬ (acc.map Prod.fst ++ l.map Prod.fst).Nodup) :
    ∃ c, DimIndices.build s l acc = Except.error (Error.DuplicateDimensionLabel c) ∧
      c ∈ l.map Prod.fst := by
  induction l generalizing acc with
  | nil => simp at hdup; exact absurd hacc hdup
  | cons p rest ih =>
    obtain ⟨c, v⟩ := p
    have hc : 65 ≤ c ∧ c ≤ 90 := hl (c, v) (List.mem_cons_self _ _)
    have hrest : ∀ p ∈ rest, 65 ≤ p.1 ∧ p.1 ≤ 90 :=
      fun p hp => hl p (List.mem_cons_of_mem _ hp)
    have hrange : ¬ (c < 65 ∨ c > 90) := by omega
    by_cases hmem : c ∈ acc.map Prod.fst
    · refine ⟨c, ?_, by simp⟩
      simp only [DimIndices.build, normalise_label s c hc, if_neg hrange, if_pos hmem]
      rfl
    · simp only [DimIndices.build, normalise_label s c hc, if_neg hrange, if_neg hmem]
      have hnodup : ((acc ++ [(c, v)]).map Prod.fst).Nodup := by
        simp only [List.map_append, List.map_cons, List.map_nil]
        rw [List.nodup_append]
        refine ⟨hacc, List.nodup_singleton c, ?_⟩
        intro a ha hb
        rw [List.mem_singleton] at hb
        exact hmem (hb ▸ ha)
      obtain ⟨d, hd, hdmem⟩ := ih (acc ++ [(c, v)]) hrest hnodup (by simpa using hdup)
      exact ⟨d, hd, List.mem_cons_of_mem _ hdmem⟩

theorem label_pairs_labels (items : List (List Byte × Int)) :
    (label_pairs items).map Prod.fst = items.map (fun item => key_label item.1) := by
  simp [label_pairs]

/-- C3 (as amended): for every call of `py_read_region` whose keywords contain
two one-letter keys with the same upper-case label (such as `x` and `X`).
`py_read_region` itself does not look for duplicates: when every key is a
single letter and every value is representable as `int`, it hands the pairs,
holding that label twice, to the constructor of the dimension indices, whatever
that constructor is, and the outcome of the call is the outcome of that
constructor.  With the constructor modelled from section 4.1 of the
specification the call then fails with the duplicate-dimension-label error,
naming a label of the keywords.  When some keyword has a value that is not
representable or a key that is not a single letter, the call fails, for every
constructor, at the first such keyword in iteration order: with the cast error
if its value is not representable, else with the invalid-argument error naming
its key.  So with the modelled constructor the call fails in every case, and
`read_region` never receives an index holding the label twice. -/
theorem py_read_region_duplicate {D : Type} (mk : List (Int × Int) → Except Error D)
    (dflt : D) (char_signed : Bool) (location size : List Int) (level : Int)
    (device : Device) (buf : Option Nat) (shm_name : String)
    (items pre mid post : List (List Byte × Int)) (k1 k2 : List Byte) (v1 v2 : Int)
    (hitems : items = pre ++ (k1, v1) :: (mid ++ (k2, v2) :: post))
    (h1 : is_letter_key k1) (h2 : is_letter_key k2) (hsame : key_label k1 = key_label k2) :
    ((∀ item ∈ items, is_letter_key item.1 ∧ fits_int item.2) →
      (py_read_region mk dflt char_signed location size level device buf shm_name
          (some items)).map (fun call => call.indices) = mk (label_pairs items) ∧
      ¬ ((label_pairs items).map Prod.fst).Nodup) ∧
    ((∀ item ∈ items, is_letter_key item.1 ∧ fits_int item.2) →
      ∃ c, py_read_region (DimIndices.ofPairs char_signed) DimIndices.empty char_signed
        location size level device buf shm_name (some items) =
          Except.error (Error.DuplicateDimensionLabel c) ∧
        c ∈ (label_pairs items).map Prod.fst) ∧
    (∀ before key v after, items = before ++ (key, v) :: after →
      (∀ item ∈ before, is_letter_key item.1 ∧ fits_int item.2) →
      (¬ fits_int v →
        py_read_region mk dflt char_signed location size level device buf shm_name
            (some items) = Except.error Error.cast_error) ∧
      (fits_int v → ¬ is_letter_key key →
        py_read_region mk dflt char_signed location size level device buf shm_name
            (some items) = Except.error (Error.invalid_argument (key_message key)))) ∧
    ((∀ item ∈ items, is_letter_key item.1 ∧ fits_int item.2) ∨
      ∃ before key v after, items = before ++ (key, v) :: after ∧
        (∀ item ∈ before, is_letter_key item.1 ∧ fits_int item.2) ∧
        ¬ (is_letter_key key ∧ fits_int v)) ∧
    (∃ e, py_read_region (DimIndices.ofPairs char_signed) DimIndices.empty char_signed
        location size level device buf shm_name (some items) = Except.error e) := by
  have _hk1 := h1
  have _hk2 := h2
  have hdup : ¬ ((label_pairs items).map Prod.fst).Nodup := by
    intro hnd
    rw [label_pairs_labels, hitems] at hnd
    simp [List.nodup_append, List.nodup_cons, hsame] at hnd
  have hall : (∀ item ∈ items, is_letter_key item.1 ∧ fits_int item.2) →
      ∃ c, py_read_region (DimIndices.ofPairs char_signed) DimIndices.empty char_signed
        location size level device buf shm_name (some items) =
          Except.error (Error.DuplicateDimensionLabel c) ∧
        c ∈ (label_pairs items).map Prod.fst := by
    intro hvalid
    have hloop := kwargs_loop_valid char_signed items (fun item hi => (hvalid item hi).1)
      (fun item hi => (hvalid item hi).2) []
    simp only [List.nil_append] at hloop
    have hrange : ∀ p ∈ label_pairs items, 65 ≤ p.1 ∧ p.1 ≤ 90 := by
      intro p hp
      simp only [label_pairs, List.mem_map] at hp
      obtain ⟨item, hi, rfl⟩ := hp
      exact key_label_range item.1 (hvalid item hi).1
    obtain ⟨c, hc, hcmem⟩ :=
      build_duplicate char_signed _ [] hrange (by simp) (by simpa using hdup)
    refine ⟨c, ?_, hcmem⟩
    simp only [py_read_region, hloop, DimIndices.ofPairs, hc, bind, Except.bind]
  have hoffending : ∀ {E : Type} (mk2 : List (Int × Int) → Except Error E) (dflt2 : E)
      (before : List (List Byte × Int)) (key : List Byte) (v : Int)
      (after : List (List Byte × Int)), items = before ++ (key, v) :: after →
      (∀ item ∈ before, is_letter_key item.1 ∧ fits_int item.2) →
      (¬ fits_int v →
        py_read_region mk2 dflt2 char_signed location size level device buf shm_name
            (some items) = Except.error Error.cast_error) ∧
      (fits_int v → ¬ is_letter_key key →
        py_read_region mk2 dflt2 char_signed location size level device buf shm_name
            (some items) = Except.error (Error.invalid_argument (key_message key))) := by
    intro E mk2 dflt2 before key v after hsplit hbefore
    rw [hsplit]
    exact py_read_region_offending mk2 dflt2 char_signed location size level device buf
      shm_name before after key v hbefore
  refine ⟨fun hvalid => ⟨?_, hdup⟩, hall, fun before key v after => hoffending mk dflt before
    key v after, first_offending items, ?_⟩
  · have hloop := kwargs_loop_valid char_signed items (fun item hi => (hvalid item hi).1)
      (fun item hi => (hvalid item hi).2) []
    simp only [List.nil_append] at hloop
    simp only [py_read_region, hloop, bind, Except.bind]
    cases mk (label_pairs items) <;> rfl
  · rcases first_offending items with hvalid | ⟨before, key, v, after, hsplit, hbefore, hbad⟩
    · obtain ⟨c, hc, _⟩ := hall hvalid
      exact ⟨_, hc⟩
    · have hoff := hoffending (DimIndices.ofPairs char_signed) DimIndices.empty before key v
        after hsplit hbefore
      by_cases hv : fits_int v
      · exact ⟨_, hoff.2 hv (fun hk => hbad ⟨hk, hv⟩)⟩
      · exact ⟨_, hoff.1 hv⟩

/-- The keywords `x=1, X=2` fail with the duplicate error for `X` (88) under the
modelled constructor, and the keywords `x=1, X=2, ab=3` fail on `ab`. -/
theorem py_read_region_duplicate_witness :
    py_read_region (DimIndices.ofPairs true) DimIndices.empty true [0, 0] [4, 4] 0
        Device.host none "" (some [([120], 1), ([88], 2)]) =
      Except.error (Error.DuplicateDimensionLabel 88) ∧
    py_read_region (DimIndices.ofPairs true) DimIndices.empty true [0, 0] [4, 4] 0
        Device.host none "" (some [([120], 1), ([88], 2), ([97, 98], 3)]) =
      Except.error (Error.invalid_argument (Message.single_character [97, 98])) := by
  constructor
  · obtain ⟨c, hc, hmem⟩ :=
      (py_read_region_duplicate (DimIndices.ofPairs true) DimIndices.empty true [0, 0] [4, 4]
        0 Device.host none "" [([120], 1), ([88], 2)] [] [] [] [120] [88] 1 2 rfl
        (by decide) (by decide) (by decide)).2.1 (by decide)
    have hc88 : c = 88 := by
      have hlabels : (label_pairs [([120], 1), ([88], 2)]).map Prod.fst = [88, 88] := by
        decide
      rw [hlabels] at hmem
      simpa using hmem
    rw [hc, hc88]
  · exact ((py_read_region_duplicate (DimIndices.ofPairs true) DimIndices.empty true [0, 0]
      [4, 4] 0 Device.host none "" [([120], 1), ([88], 2), ([97, 98], 3)] [] [] [([97, 98], 3)]
      [120] [88] 1 2 rfl (by decide) (by decide) (by decide)).2.2.1
      [([120], 1), ([88], 2)] [97, 98] 3 [] rfl (by decide)).2 (by decide) (by decide)

/-- The keywords `x=1, X=2, ab=3` hold the label `X` twice, yet the call fails
with the invalid-argument error for `ab`, not with the duplicate error: for
every constructor of the dimension indices, and so for the modelled one.  And
on the keywords `x=1, X=2` alone `py_read_region` raises nothing of its own:
with a constructor that stores its argument the pairs `(X, 1), (X, 2)` are the
indices of the call of `read_region`. -/
theorem py_read_region_duplicate_counterexample :
    is_letter_key [120] ∧ is_letter_key [88] ∧ key_label [120] = key_label [88] ∧
    (∀ (D : Type) (mk : List (Int × Int) → Except Error D) (dflt : D),
      py_read_region mk dflt true [0, 0] [4, 4] 0
          Device.host none "" (some [([120], 1), ([88], 2), ([97, 98], 3)]) =
        Except.error (Error.invalid_argument (Message.single_character [97, 98]))) ∧
    (py_read_region (fun pairs => Except.ok pairs) [] true [0, 0] [4, 4] 0
        Device.host none "" (some [([120], 1), ([88], 2)])).map (fun call => call.indices) =
      Except.ok [(88, 1), (88, 2)] ∧
    ¬ ∃ c, py_read_region (DimIndices.ofPairs true) DimIndices.empty true [0, 0] [4, 4] 0
        Device.host none "" (some [([120], 1), ([88], 2), ([97, 98], 3)]) =
      Except.error (Error.DuplicateDimensionLabel c) := by
  refine ⟨by decide, by decide, by decide, fun _ _ _ => rfl, rfl, ?_⟩
  rintro ⟨c, hc⟩
  have h : py_read_region (DimIndices.ofPairs true) DimIndices.empty true [0, 0] [4, 4] 0
        Device.host none "" (some [([120], 1), ([88], 2), ([97, 98], 3)]) =
      Except.error (Error.invalid_argument (Message.single_character [97, 98])) := rfl
  rw [h] at hc
  cases hc

/-! ## Destination arguments -/

/-- C4 (defect of the code): a call with the external buffer at address 4096
and the shared-memory name `seg` reaches `read_region` with a null buffer and an
empty name; in general every call that reaches `read_region` passes a null
buffer and the empty name, whatever `buf` and `shm_name` are. -/
theorem py_read_region_destination_dropped :
    (py_read_region (DimIndices.ofPairs true) DimIndices.empty true [0, 0] [4, 4] 0
        Device.host (some 4096) "seg" (some [])).map
        (fun call => (call.buffer, call.shm_name)) = Except.ok (none, "") ∧
    ∀ (D : Type) (mk : List (Int × Int) → Except Error D) (dflt : D) (char_signed : Bool)
      (location size : List Int) (level : Int) (device : Device) (buf : Option Nat)
      (shm_name : String) (kwargs : Option (List (List Byte × Int))),
      (py_read_region mk dflt char_signed location size level device buf shm_name kwargs).map
          (fun call => (call.buffer, call.shm_name)) =
        (py_read_region mk dflt char_signed location size level device buf shm_name kwargs).map
          (fun _ => (none, "")) := by
  refine ⟨rfl, ?_⟩
  intro D mk dflt char_signed location size level device buf shm_name kwargs
  cases kwargs with
  | none => rfl
  | some items =>
    simp only [py_read_region, bind, Except.bind, pure, Except.pure]
    cases kwargs_loop char_signed items [] with
    | error e => rfl
    | ok r =>
      simp only []
      cases mk r with
      | error e => rfl
      | ok indices => rfl

/-! ## Tuples -/

theorem vector2pytuple_args {T : Type} (cast : T → PyObject) (vec : List T)
    (init : List PyObject) :
    vec.foldl (fun args arg_value => args ++ [cast arg_value]) init = init ++ vec.map cast := by
  induction vec generalizing init with
  | nil => simp
  | cons a rest ih => simp [ih]

theorem vector2pytuple_fill (args done : List PyObject) :
    (args.foldl
      (fun (state : List PyObject × Nat) arg_value =>
        (state.1.set state.2 arg_value, state.2 + 1))
      (done ++ List.replicate args.length PyObject.null, done.length)).1 = done ++ args := by
  induction args generalizing done with
  | nil => simp
  | cons a rest ih =>
    have hset : (done ++ List.replicate (rest.length + 1) PyObject.null).set done.length a =
        (done ++ [a]) ++ List.replicate rest.length PyObject.null := by
      simp [List.replicate_succ]
    have hlen : done.length + 1 = (done ++ [a]).length := by simp
    simp only [List.foldl_cons, List.length_cons, hset, hlen]
    rw [ih (done ++ [a])]
    simp

/-- The tuple built by `vector2pytuple` holds the converted elements in order
(and no unset slot). -/
theorem vector2pytuple_eq {T : Type} (cast : T → PyObject) (vec : List T) :
    vector2pytuple cast vec = PyObject.tuple (vec.map cast) := by
  have hargs := vector2pytuple_args cast vec []
  simp only [List.nil_append] at hargs
  have hfill := vector2pytuple_fill (vec.map cast) []
  simp only [List.nil_append, List.length_nil, List.length_map] at hfill
  simp only [vector2pytuple, hargs, hfill]

/-! ## The level loop -/

/-- Every level the loop queries lies between its start and `level_count`. -/
theorem level_dimensions_loop_queries {β : Type} (f : List Int → β) (r : Resolutions)
    (n k : Nat) : ∀ (level : Nat) (vec : List β) (queried : List Nat), n - level = k →
      ∀ l ∈ (level_dimensions_loop f r n level vec queried).2, l ∈ queried ∨ l < n := by
  induction k with
  | zero =>
    intro level vec queried hk l hl
    have hge : ¬ level < n := by omega
    rw [level_dimensions_loop, if_neg hge] at hl
    exact Or.inl hl
  | succ k ih =>
    intro level vec queried hk l hl
    have hlt : level < n := by omega
    rw [level_dimensions_loop, if_pos hlt] at hl
    simp only [Traced.bind, Traced.level_dimension] at hl
    cases hq : r.level_dimension level with
    | error e =>
      simp only [hq] at hl
      rcases List.mem_append.mp hl with h | h
      · exact Or.inl h
      · exact Or.inr (by rw [List.mem_singleton] at h; omega)
    | ok dimension =>
      simp only [hq] at hl
      rcases ih (level + 1) _ _ (by omega) l hl with h | h
      · rcases List.mem_append.mp h with h | h
        · exact Or.inl h
        · exact Or.inr (by rw [List.mem_singleton] at h; omega)
      · exact Or.inr h

/-- When the accessor succeeds on the levels still to visit, the loop visits
each of them once, in increasing order, and appends its dimension. -/
theorem level_dimensions_loop_ok {β : Type} (f : List Int → β) (r : Resolutions)
    (dim : Nat → List Int) (n k : Nat) :
    ∀ (level : Nat) (vec : List β) (queried : List Nat), n - level = k →
      (∀ i, level ≤ i → i < n → r.level_dimension i = Except.ok (dim i)) →
      level_dimensions_loop f r n level vec queried =
        (Except.ok (vec ++ (List.range' level (n - level)).map (fun i => f (dim i))),
          queried ++ List.range' level (n - level)) := by
  induction k with
  | zero =>
    intro level vec queried hk _
    have hge : ¬ level < n := by omega
    rw [level_dimensions_loop, if_neg hge, hk]
    simp [Traced.pure]
  | succ k ih =>
    intro level vec queried hk hdim
    have hlt : level < n := by omega
    rw [level_dimensions_loop, if_pos hlt]
    simp only [Traced.bind, Traced.level_dimension, hdim level (Nat.le_refl _) hlt]
    rw [ih (level + 1) _ _ (by omega) (fun i hi hin => hdim i (by omega) hin)]
    have hsub : n - level = (n - (level + 1)) + 1 := by omega
    rw [hsub, List.range'_succ]
    simp

/-- The loop only depends on the accessor at the levels below `level_count`. -/
theorem level_dimensions_loop_congr {β : Type} (f : List Int → β) (r1 r2 : Resolutions)
    (n k : Nat) (hagree : ∀ i, i < n → r1.level_dimension i = r2.level_dimension i) :
    ∀ (level : Nat) (vec : List β) (queried : List Nat), n - level = k →
      level_dimensions_loop f r1 n level vec queried =
        level_dimensions_loop f r2 n level vec queried := by
  induction k with
  | zero =>
    intro level vec queried hk
    have hge : ¬ level < n := by omega
    rw [level_dimensions_loop, level_dimensions_loop, if_neg hge, if_neg hge]
  | succ k ih =>
    intro level vec queried hk
    have hlt : level < n := by omega
    rw [level_dimensions_loop, level_dimensions_loop, if_pos hlt, if_pos hlt]
    simp only [Traced.bind, Traced.level_dimension, hagree level hlt]
    cases r2.level_dimension level with
    | error e => rfl
    | ok dimension => exact ih (level + 1) _ _ (by omega)

theorem level_dimensions_loop_congr_fun {β : Type} (f : List Int → β) (r1 r2 : Resolutions)
    (n : Nat) (hagree : ∀ i, i < n → r1.level_dimension i = r2.level_dimension i)
    (level : Nat) (vec : List β) :
    level_dimensions_loop f r1 n level vec = level_dimensions_loop f r2 n level vec := by
  funext queried
  exact level_dimensions_loop_congr f r1 r2 n (n - level) hagree level vec queried rfl

/-! ## Which levels are queried -/

theorem queries_below_pure {α : Type} (a : α) (n : Nat) :
    Traced.queries_below (pure a : Traced α) n := by
  intro queried l hl
  exact Or.inl hl

theorem queries_below_lift {α : Type} (x : Except Error α) (n : Nat) :
    Traced.queries_below (Traced.lift x) n := by
  intro queried l hl
  exact Or.inl hl

theorem queries_below_bind {α β : Type} (m : Traced α) (f : α → Traced β) (n : Nat)
    (hm : Traced.queries_below m n) (hf : ∀ a, Traced.queries_below (f a) n) :
    Traced.queries_below (m >>= f) n := by
  intro queried l hl
  change l ∈ (Traced.bind m f queried).2 at hl
  have hm2 := hm queried
  unfold Traced.bind at hl
  rcases hmq : m queried with ⟨x, q2⟩
  rw [hmq] at hl hm2
  cases x with
  | error e => exact hm2 l hl
  | ok a =>
    rcases hf a q2 l hl with h | h
    · exact hm2 l h
    · exact Or.inr h

theorem queries_below_loop {β : Type} (f : List Int → β) (r : Resolutions) (n level : Nat)
    (vec : List β) : Traced.queries_below (level_dimensions_loop f r n level vec) n := by
  intro queried l hl
  exact level_dimensions_loop_queries f r n (n - level) level vec queried rfl l hl

theorem py_metadata_queries (parse : String → Except Error Json) (cuimg : CuImage) :
    Traced.queries_below (py_metadata parse cuimg) cuimg.resolutions.level_count := by
  unfold py_metadata
  repeat (first
    | exact queries_below_lift _ _
    | exact queries_below_pure _ _
    | exact queries_below_loop _ _ _ _ _
    | apply queries_below_bind
    | intro _)

theorem py_resolutions_queries (cuimg : CuImage) :
    Traced.queries_below (py_resolutions cuimg) cuimg.resolutions.level_count := by
  unfold py_resolutions
  by_cases h0 : cuimg.resolutions.level_count = 0
  · simp only [h0, if_true]
    exact queries_below_pure _ _
  · simp only [h0, if_false]
    repeat (first
      | exact queries_below_lift _ _
      | exact queries_below_pure _ _
      | exact queries_below_loop _ _ _ _ _
      | apply queries_below_bind
      | intro _)

/-- C10: for every pyramid, whatever its accessor does, `py_metadata` and
`py_resolutions` call `level_dimension(level)` only with `level < level_count`
(levels are counted from 0); when `level_count = 0` neither makes any such
call; and neither result depends on what the accessor does outside that range,
so its out-of-range branch is never taken. -/
theorem level_dimension_queries_in_range (parse : String → Except Error Json) (cuimg : CuImage) :
    (∀ level ∈ (py_metadata parse cuimg).run.2, level < cuimg.resolutions.level_count) ∧
    (∀ level ∈ (py_resolutions cuimg).run.2, level < cuimg.resolutions.level_count) ∧
    (cuimg.resolutions.level_count = 0 →
      (py_metadata parse cuimg).run.2 = [] ∧ (py_resolutions cuimg).run.2 = []) ∧
    (∀ g : Nat → Except Error (List Int),
      (∀ i, i < cuimg.resolutions.level_count → g i = cuimg.resolutions.level_dimension i) →
      (py_metadata parse (cuimg.with_level_dimension g)).run = (py_metadata parse cuimg).run ∧
      (py_resolutions (cuimg.with_level_dimension g)).run = (py_resolutions cuimg).run) := by
  have hm : ∀ level ∈ (py_metadata parse cuimg).run.2,
      level < cuimg.resolutions.level_count := by
    intro level hl
    rcases py_metadata_queries parse cuimg [] level hl with h | h
    · cases h
    · exact h
  have hr : ∀ level ∈ (py_resolutions cuimg).run.2,
      level < cuimg.resolutions.level_count := by
    intro level hl
    rcases py_resolutions_queries cuimg [] level hl with h | h
    · cases h
    · exact h
  refine ⟨hm, hr, ?_, ?_⟩
  · intro h0
    constructor
    · apply List.eq_nil_iff_forall_not_mem.mpr
      intro level hl
      have := hm level hl
      omega
    · apply List.eq_nil_iff_forall_not_mem.mpr
      intro level hl
      have := hr level hl
      omega
  · intro g hg
    have hloop : ∀ {β : Type} (f : List Int → β),
        level_dimensions_loop f { cuimg.resolutions with level_dimension := g }
            cuimg.resolutions.level_count 0 [] =
          level_dimensions_loop f cuimg.resolutions cuimg.resolutions.level_count 0 [] :=
      fun f => level_dimensions_loop_congr_fun f _ _ _ hg 0 []
    constructor
    · simp only [py_metadata, CuImage.with_level_dimension, hloop]
    · simp only [py_resolutions, CuImage.with_level_dimension, hloop]

/-- On the two-level sample pyramid exactly the levels 0 and 1 are queried, and
an accessor that fails on these two levels exactly as the sample one does
gives the same result. -/
theorem level_dimension_queries_in_range_witness :
    (∀ level ∈ (py_resolutions sample_image).run.2, level < 2) ∧
    ((py_metadata (fun _ => Except.ok (Json.object [])) flat_image).run.2 = [] ∧
      (py_resolutions flat_image).run.2 = []) ∧
    (py_resolutions (sample_image.with_level_dimension
        (fun level => if level < 2 then sample_resolutions.level_dimension level
                      else Except.ok []))).run = (py_resolutions sample_image).run :=
  ⟨(level_dimension_queries_in_range (fun _ => Except.ok (Json.object [])) sample_image).2.1,
   (level_dimension_queries_in_range (fun _ => Except.ok (Json.object [])) flat_image).2.2.1 rfl,
   ((level_dimension_queries_in_range (fun _ => Except.ok (Json.object [])) sample_image).2.2.2
      (fun level => if level < 2 then sample_resolutions.level_dimension level else Except.ok [])
      (fun _ hi => if_pos hi)).2⟩

/-! ## `py_resolutions` -/

/-- C7: for every pyramid whose accessor returns `dim i` at each level
`i < level_count` and whose downsample list has `level_count` entries,
`py_resolutions` returns the dictionary with `level_count` equal to that count
`n`, `level_dimensions` the tuple of exactly `n` tuples, the one at position `i`
holding `level_dimension(i)`, in increasing level order, and
`level_downsamples` the tuple of the downsample list; in these `n` calls it
queries the levels `0, ..., n - 1` once each; for `n = 0` the dictionary is
count 0 with two empty tuples. -/
theorem py_resolutions_summary (cuimg : CuImage) (dim : Nat → List Int)
    (hdim : ∀ i, i < cuimg.resolutions.level_count →
      cuimg.resolutions.level_dimension i = Except.ok (dim i))
    (hdown : cuimg.resolutions.level_downsamples.length = cuimg.resolutions.level_count) :
    (py_resolutions cuimg).run =
      (Except.ok (PyObject.dict
        [("level_count", PyObject.int cuimg.resolutions.level_count),
         ("level_dimensions", PyObject.tuple
            ((List.range cuimg.resolutions.level_count).map
              (fun i => PyObject.tuple ((dim i).map PyObject.int)))),
         ("level_downsamples", PyObject.tuple
            (cuimg.resolutions.level_downsamples.map PyObject.float))]),
       List.range cuimg.resolutions.level_count) ∧
    ((List.range cuimg.resolutions.level_count).map
        (fun i => PyObject.tuple ((dim i).map PyObject.int))).length =
      cuimg.resolutions.level_count ∧
    (cuimg.resolutions.level_count = 0 →
      (py_resolutions cuimg).run =
        (Except.ok (PyObject.dict
          [("level_count", PyObject.int 0),
           ("level_dimensions", PyObject.tuple []),
           ("level_downsamples", PyObject.tuple [])]), [])) := by
  have hzero : cuimg.resolutions.level_count = 0 →
      (py_resolutions cuimg).run =
        (Except.ok (PyObject.dict
          [("level_count", PyObject.int 0),
           ("level_dimensions", PyObject.tuple []),
           ("level_downsamples", PyObject.tuple [])]), []) := by
    intro h0
    simp only [py_resolutions, h0, if_true]
    rfl
  refine ⟨?_, by simp, hzero⟩
  by_cases h0 : cuimg.resolutions.level_count = 0
  · rw [hzero h0]
    have hnil : cuimg.resolutions.level_downsamples = [] :=
      List.eq_nil_of_length_eq_zero (by rw [hdown, h0])
    simp [h0, hnil]
  · have hloop := level_dimensions_loop_ok (vector2pytuple PyObject.int) cuimg.resolutions dim
      cuimg.resolutions.level_count cuimg.resolutions.level_count 0 [] [] rfl
      (fun i _ hi => hdim i hi)
    simp only [Nat.sub_zero, List.nil_append, ← List.range_eq_range'] at hloop
    simp only [py_resolutions, h0, if_false, Traced.run, bind, Traced.bind, hloop,
      vector2pytuple_eq, pure, Traced.pure, List.map_map, List.map_id, id]

/-- The sample pyramid has two levels; the flat image gives the empty summary. -/
theorem py_resolutions_summary_witness :
    (py_resolutions sample_image).run =
      (Except.ok (PyObject.dict
        [("level_count", PyObject.int 2),
         ("level_dimensions", PyObject.tuple
            [PyObject.tuple [PyObject.int 1000, PyObject.int 2000, PyObject.int 3],
             PyObject.tuple [PyObject.int 500, PyObject.int 1000, PyObject.int 3]]),
         ("level_downsamples", PyObject.tuple
            [PyObject.float { bits := 0x3F800000 }, PyObject.float { bits := 0x40000000 }])]),
       [0, 1]) ∧
    (py_resolutions flat_image).run =
      (Except.ok (PyObject.dict
        [("level_count", PyObject.int 0),
         ("level_dimensions", PyObject.tuple []),
         ("level_downsamples", PyObject.tuple [])]), []) :=
  ⟨(py_resolutions_summary sample_image
      (fun i => match i with
        | 0 => [1000, 2000, 3]
        | 1 => [500, 1000, 3]
        | _ => [])
      (fun i hi => by
        have hi2 : i < 2 := hi
        interval_cases i <;> rfl)
      rfl).1,
   (py_resolutions_summary flat_image (fun _ => [])
      (fun i hi => absurd hi (Nat.not_lt_zero i)) rfl).2.2 rfl⟩

/-! ## `get_array_interface` -/

/-- C8: for every image handle, `get_array_interface` returns the empty
dictionary when the container holds no tensor (null pointer); otherwise, the
address being a 64-bit value, it returns the dictionary whose `data` is the pair
(address of the buffer, `False`), whose `strides` is `None`, whose `descr` is the
one-element list holding `('', typestr)`, whose `typestr` is the string
`numpy_dtype()` of the handle, whose `shape` is the tuple of the shape of the
handle in the same order, and whose `version` is 3. -/
theorem get_array_interface_descriptor (cuimg : CuImage) :
    (cuimg.container.tensor = none → get_array_interface cuimg = PyObject.dict []) ∧
    (∀ tensor, cuimg.container.tensor = some tensor → tensor.data < 2 ^ 64 →
      get_array_interface cuimg =
        PyObject.dict
          [("data", PyObject.tuple [PyObject.int tensor.data, PyObject.bool false]),
           ("strides", PyObject.none),
           ("descr", PyObject.list
              [PyObject.tuple [PyObject.str "", PyObject.str cuimg.container.numpy_dtype]]),
           ("typestr", PyObject.str cuimg.container.numpy_dtype),
           ("shape", PyObject.tuple (cuimg.shape.map PyObject.int)),
           ("version", PyObject.int 3)]) := by
  constructor
  · intro h
    simp only [get_array_interface, h]
  · intro tensor h hlt
    simp only [get_array_interface, h, vector2pytuple_eq, Nat.mod_eq_of_lt hlt, List.nil_append]

/-- The sample image exports its buffer; the flat image, without a buffer,
gives the empty dictionary. -/
theorem get_array_interface_descriptor_witness :
    get_array_interface flat_image = PyObject.dict [] ∧
    get_array_interface sample_image =
      PyObject.dict
        [("data", PyObject.tuple [PyObject.int 140737488355328, PyObject.bool false]),
         ("strides", PyObject.none),
         ("descr", PyObject.list [PyObject.tuple [PyObject.str "", PyObject.str "|u1"]]),
         ("typestr", PyObject.str "|u1"),
         ("shape", PyObject.tuple [PyObject.int 1000, PyObject.int 2000, PyObject.int 3]),
         ("version", PyObject.int 3)] :=
  ⟨(get_array_interface_descriptor flat_image).1 rfl,
   (get_array_interface_descriptor sample_image).2 { data := 140737488355328 } rfl
     (by decide)⟩

/-- C9 (as amended): the descriptor returned by `get_array_interface` does not
encode the device.  It is determined by the container (the tensor pointer and
the element-type string) and the shape of the handle alone, so two handles that
differ only in the device holding their buffer, or in any other attribute,
yield the same descriptor. -/
theorem get_array_interface_ignores_device (a b : CuImage)
    (hcontainer : a.container = b.container) (hshape : a.shape = b.shape) :
    get_array_interface a = get_array_interface b ∧
    ∀ device : Device, get_array_interface (a.with_device device) = get_array_interface b := by
  have h : get_array_interface a = get_array_interface b := by
    unfold get_array_interface
    rw [hcontainer, hshape]
  exact ⟨h, fun _ => h⟩

/-- The sample image on the host and on an accelerator. -/
theorem get_array_interface_ignores_device_witness :
    get_array_interface sample_image =
      get_array_interface (sample_image.with_device (Device.accelerator 2 0)) :=
  (get_array_interface_ignores_device sample_image
    (sample_image.with_device (Device.accelerator 2 0)) rfl rfl).1

/-- The sample image moved to accelerator 0 of kind 2 differs from the host
sample image in its device only, holds a buffer, and yet yields the same
descriptor. -/
theorem get_array_interface_device_counterexample :
    (sample_image.with_device (Device.accelerator 2 0)).device ≠ Device.host ∧
    (sample_image.with_device (Device.accelerator 2 0)).device ≠ sample_image.device ∧
    (sample_image.with_device (Device.accelerator 2 0)).container.tensor ≠ none ∧
    ¬ (get_array_interface (sample_image.with_device (Device.accelerator 2 0)) ≠
        get_array_interface sample_image) := by
  refine ⟨by decide, by decide, by decide, ?_⟩
  intro h
  exact h rfl

/-! ## `py_metadata` -/

/-- The level loop of `py_metadata` on a pyramid whose accessor succeeds. -/
theorem py_metadata_loop (r : Resolutions) (dim : Nat → List Int)
    (hdim : ∀ i, i < r.level_count → r.level_dimension i = Except.ok (dim i))
    (queried : List Nat) :
    level_dimensions_loop id r r.level_count 0 [] queried =
      (Except.ok ((List.range r.level_count).map dim), queried ++ List.range r.level_count) := by
  have h := level_dimensions_loop_ok id r dim r.level_count r.level_count 0 [] queried rfl
    (fun i _ hi => hdim i hi)
  simpa [← List.range_eq_range'] using h

/-- C6: for every image handle whose raw metadata is the empty string (the
parser mapping the text of the empty object to the empty object, and the
accessor returning `dim i` at each level `i < level_count`), `py_metadata` does
not fail and returns the object whose only member is `cucim`, an object with
exactly the members `path`, `ndim`, `dims`, `shape`, `dtype`, `channel_names`,
`spacing`, `spacing_units`, `origin`, `direction`, `coord_sys`, `resolutions`
and `associated_images`, each the corresponding attribute of the handle
(`dtype` as code, bits and lanes; `resolutions` as level_count,
level_dimensions and level_downsamples). -/
theorem py_metadata_empty (parse : String → Except Error Json) (cuimg : CuImage)
    (dim : Nat → List Int)
    (hparse : parse "{}" = Except.ok (Json.object []))
    (hmeta : cuimg.metadata = "")
    (hdim : ∀ i, i < cuimg.resolutions.level_count →
      cuimg.resolutions.level_dimension i = Except.ok (dim i)) :
    (py_metadata parse cuimg).run.1 =
      Except.ok (Json.object
        [("cucim", Json.object
          [("path", Json.string cuimg.path),
           ("ndim", Json.number_integer cuimg.ndim),
           ("dims", Json.array (cuimg.dims.map Json.string)),
           ("shape", Json.array (cuimg.shape.map Json.number_integer)),
           ("dtype", Json.object
              [("code", Json.number_integer cuimg.dtype.code),
               ("bits", Json.number_integer cuimg.dtype.bits),
               ("lanes", Json.number_integer cuimg.dtype.lanes)]),
           ("channel_names", Json.array (cuimg.channel_names.map Json.string)),
           ("spacing", Json.array (cuimg.spacing.map Json.number_float)),
           ("spacing_units", Json.array (cuimg.spacing_units.map Json.string)),
           ("origin", Json.array (cuimg.origin.map Json.number_float)),
           ("direction", Json.array (cuimg.direction.map Json.number_float)),
           ("coord_sys", Json.string cuimg.coord_sys),
           ("resolutions", Json.object
              [("level_count", Json.number_integer cuimg.resolutions.level_count),
               ("level_dimensions", Json.array
                  ((List.range cuimg.resolutions.level_count).map
                    (fun i => Json.array ((dim i).map Json.number_integer)))),
               ("level_downsamples", Json.array
                  (cuimg.resolutions.level_downsamples.map Json.number_float))]),
           ("associated_images", Json.array (cuimg.associated_images.map Json.string))])]) := by
  have hempty : ("" : String).isEmpty = true := rfl
  simp only [py_metadata, hmeta, hempty, if_true, hparse, Traced.run, bind, Traced.bind,
    Traced.lift, Json.emplace, pure, Except.pure, py_metadata_loop cuimg.resolutions dim hdim,
    List.map_map]
  simp [emplace_members, assign_members, Json.element, Json.get?, Json.assign, Json.of_string,
    Json.of_strings, Json.of_ints, Json.of_floats, Json.of_dtype, Traced.pure,
    Function.comp_def]

/-- The sample image, whose raw metadata is empty, with the sample parser. -/
theorem py_metadata_empty_witness :
    ∃ members, (py_metadata sample_parse sample_image).run.1 =
      Except.ok (Json.object [("cucim", Json.object members)]) ∧
      members.map Prod.fst =
        ["path", "ndim", "dims", "shape", "dtype", "channel_names", "spacing", "spacing_units",
         "origin", "direction", "coord_sys", "resolutions", "associated_images"] :=
  ⟨_, py_metadata_empty sample_parse sample_image
      (fun i => match i with
        | 0 => [1000, 2000, 3]
        | 1 => [500, 1000, 3]
        | _ => [])
      rfl rfl
      (fun i hi => by
        have hi2 : i < 2 := hi
        interval_cases i <;> rfl),
    rfl⟩

/-! ## Members that are already present -/

theorem emplace_members_cons (a : String) (b : Json) (rest : List (String × Json))
    (k : String) (v : Json) :
    emplace_members ((a, b) :: rest) k v =
      if a = k then (a, b) :: rest else (a, b) :: emplace_members rest k v := by
  unfold emplace_members
  by_cases hak : a = k
  · simp [hak]
  · by_cases hany : (rest.any (fun m => m.1 == k)) = true
    · simp [hak, hany]
    · simp [hak, hany]

/-- Lookup after `emplace`: a member already present is kept, an absent one is
the inserted value. -/
theorem get?_emplace_members (ms : List (String × Json)) (k : String) (v : Json)
    (key : String) :
    (Json.object (emplace_members ms k v)).get? key =
      ((Json.object ms).get? key).or (if key = k then some v else none) := by
  induction ms with
  | nil =>
    by_cases h : k = key
    · subst h; simp [emplace_members, Json.get?]
    · have h2 : ¬ key = k := fun e => h e.symm
      simp [emplace_members, Json.get?, h, h2]
  | cons m rest ih =>
    obtain ⟨a, b⟩ := m
    rw [emplace_members_cons]
    simp only [Json.get?] at ih ⊢
    by_cases hak : a = k
    · subst hak
      by_cases hkey : a = key
      · subst hkey; simp
      · have h2 : ¬ key = a := fun e => hkey e.symm
        simp [hkey, h2]
    · by_cases hkey : a = key
      · subst hkey; simp [hak]
      · simp only [if_neg hak, List.find?_cons]
        have hb : ((a, b).1 == key) = false := by simpa using hkey
        simp only [hb]
        exact ih

theorem get?_assign_members_ne (ms : List (String × Json)) (k : String) (v : Json)
    (key : String) (hne : key ≠ k) :
    (Json.object (assign_members ms k v)).get? key = (Json.object ms).get? key := by
  induction ms with
  | nil => rfl
  | cons m rest ih =>
    obtain ⟨a, b⟩ := m
    simp only [Json.get?, assign_members] at ih ⊢
    by_cases hak : a = k
    · subst hak
      have h2 : ¬ a = key := fun e => hne e.symm
      simpa [h2] using ih
    · by_cases hkey : a = key
      · subst hkey; simp [hak]
      · simpa [hak, hkey] using ih

theorem get?_assign_members_eq (ms : List (String × Json)) (k : String) (v x : Json)
    (h : (Json.object ms).get? k = some x) :
    (Json.object (assign_members ms k v)).get? k = some v := by
  induction ms with
  | nil => simp [Json.get?] at h
  | cons m rest ih =>
    obtain ⟨a, b⟩ := m
    simp only [Json.get?, assign_members] at ih h ⊢
    by_cases hak : a = k
    · subst hak; simp
    · have hb : ((a, b).1 == k) = false := by simpa using hak
      simp only [List.find?_cons, hb] at h
      simpa [hak] using ih h

theorem emplace_members_present (ms : List (String × Json)) (k : String) (v x : Json)
    (h : (Json.object ms).get? k = some x) : emplace_members ms k v = ms := by
  induction ms with
  | nil => simp [Json.get?] at h
  | cons m rest ih =>
    obtain ⟨a, b⟩ := m
    rw [emplace_members_cons]
    by_cases hak : a = k
    · simp [hak]
    · have hb : ((a, b).1 == k) = false := by simpa using hak
      simp only [Json.get?, List.find?_cons, hb] at h ih
      rw [if_neg hak, ih h]

theorem emplace_native (j : Json) (ms : List (String × Json))
    (h : native_members (some j) = some ms) (k : String) (v : Json) :
    j.emplace k v = Except.ok (Json.object (emplace_members ms k v)) := by
  cases j <;> simp [native_members] at h <;> subst h <;> rfl

theorem emplace_not_native (j : Json) (h : native_members (some j) = none) (k : String)
    (v : Json) : j.emplace k v = Except.error (Error.type_error 311) := by
  cases j <;> simp [native_members] at h <;> rfl

/-- The member `resolutions` after line 212 is the native one, or the empty
object when the native `cucim` object has none. -/
theorem get?_merged_cucim_head (cm : List (String × Json)) (cuimg : CuImage) :
    (Json.object (merged_cucim_head cm cuimg)).get? "resolutions" =
      ((Json.object cm).get? "resolutions").or (some (Json.object [])) := by
  simp [merged_cucim_head, get?_emplace_members]

/-- The result of `py_metadata` when the parsed document has a `cucim` member
that is an object or null, as is its `resolutions` member if it has one. -/
theorem py_metadata_closed_form (parse : String → Except Error Json) (cuimg : CuImage)
    (dim : Nat → List Int) (members cm rm : List (String × Json)) (native : Json)
    (hmeta : cuimg.metadata.isEmpty = false)
    (hparse : parse cuimg.metadata = Except.ok (Json.object members))
    (hcucim : (Json.object members).get? "cucim" = some native)
    (hcm : native_members (some native) = some cm)
    (hrm : native_members ((Json.object cm).get? "resolutions") = some rm)
    (hdim : ∀ i, i < cuimg.resolutions.level_count →
      cuimg.resolutions.level_dimension i = Except.ok (dim i)) :
    (py_metadata parse cuimg).run =
      (Except.ok ((Json.object members).assign "cucim"
        (Json.object (merged_cucim cm rm cuimg dim))),
       List.range cuimg.resolutions.level_count) := by
  have htop : (Json.object members).emplace "cucim" (Json.object []) =
      Except.ok (Json.object members) := by
    simp only [Json.emplace, emplace_members_present members "cucim" _ native hcucim]
    rfl
  have htop_element : (Json.object members).element "cucim" = native := by
    simp only [Json.element, hcucim, Option.getD_some]
  have hobject : ∀ (ms : List (String × Json)) (k : String) (v : Json),
      (Json.object ms).emplace k v = Except.ok (Json.object (emplace_members ms k v)) :=
    fun _ _ _ => rfl
  have hnative := emplace_native native cm hcm
  have helem : native_members (some (Json.element
      (Json.object (merged_cucim_head cm cuimg)) "resolutions")) = some rm := by
    rw [Json.element, get?_merged_cucim_head]
    cases hres : (Json.object cm).get? "resolutions" with
    | none => rw [hres] at hrm; simpa [native_members] using hrm
    | some x => rw [hres] at hrm; simpa using hrm
  have hresolutions := emplace_native _ rm helem
  simp only [merged_cucim_head] at hresolutions
  simp only [py_metadata, hmeta, hparse, Traced.run, bind, Traced.bind, Traced.lift,
    Bool.false_eq_true, if_false, htop, htop_element, hnative, hobject, hresolutions,
    py_metadata_loop cuimg.resolutions dim hdim, Json.assign, List.nil_append, pure,
    Traced.pure, List.map_map]
  rfl

/-- The call fails when the native `cucim` member is neither an object nor null. -/
theorem py_metadata_cucim_not_object (parse : String → Except Error Json) (cuimg : CuImage)
    (members : List (String × Json)) (native : Json)
    (hmeta : cuimg.metadata.isEmpty = false)
    (hparse : parse cuimg.metadata = Except.ok (Json.object members))
    (hcucim : (Json.object members).get? "cucim" = some native)
    (hcm : native_members (some native) = none) :
    (py_metadata parse cuimg).run = (Except.error (Error.type_error 311), []) := by
  have htop : (Json.object members).emplace "cucim" (Json.object []) =
      Except.ok (Json.object members) := by
    simp only [Json.emplace, emplace_members_present members "cucim" _ native hcucim]
    rfl
  have htop_element : (Json.object members).element "cucim" = native := by
    simp only [Json.element, hcucim, Option.getD_some]
  simp only [py_metadata, hmeta, hparse, Traced.run, bind, Traced.bind, Traced.lift,
    Bool.false_eq_true, if_false, htop, htop_element, emplace_not_native native hcm]

/-- The call fails when the native `resolutions` member is neither an object
nor null. -/
theorem py_metadata_resolutions_not_object (parse : String → Except Error Json)
    (cuimg : CuImage) (members cm : List (String × Json)) (native : Json)
    (hmeta : cuimg.metadata.isEmpty = false)
    (hparse : parse cuimg.metadata = Except.ok (Json.object members))
    (hcucim : (Json.object members).get? "cucim" = some native)
    (hcm : native_members (some native) = some cm)
    (hrm : native_members ((Json.object cm).get? "resolutions") = none) :
    (py_metadata parse cuimg).run = (Except.error (Error.type_error 311), []) := by
  have htop : (Json.object members).emplace "cucim" (Json.object []) =
      Except.ok (Json.object members) := by
    simp only [Json.emplace, emplace_members_present members "cucim" _ native hcucim]
    rfl
  have htop_element : (Json.object members).element "cucim" = native := by
    simp only [Json.element, hcucim, Option.getD_some]
  have hobject : ∀ (ms : List (String × Json)) (k : String) (v : Json),
      (Json.object ms).emplace k v = Except.ok (Json.object (emplace_members ms k v)) :=
    fun _ _ _ => rfl
  have hnative := emplace_native native cm hcm
  have helem : native_members (some (Json.element
      (Json.object (merged_cucim_head cm cuimg)) "resolutions")) = none := by
    rw [Json.element, get?_merged_cucim_head]
    cases hres : (Json.object cm).get? "resolutions" with
    | none => rw [hres] at hrm; simp [native_members] at hrm
    | some x => rw [hres] at hrm; simpa using hrm
  have hresolutions := emplace_not_native _ helem
  simp only [merged_cucim_head] at hresolutions
  simp only [py_metadata, hmeta, hparse, Traced.run, bind, Traced.bind, Traced.lift,
    Bool.false_eq_true, if_false, htop, htop_element, hnative, hobject, hresolutions]

theorem merged_cucim_keeps (cm rm : List (String × Json)) (cuimg : CuImage)
    (dim : Nat → List Int) (key : String) (value : Json)
    (h : (Json.object cm).get? key = some value) (hne : key ≠ "resolutions") :
    (Json.object (merged_cucim cm rm cuimg dim)).get? key = some value := by
  simp [merged_cucim, merged_cucim_head, get?_emplace_members,
    get?_assign_members_ne _ _ _ _ hne, h]

theorem merged_cucim_adds (cm rm : List (String × Json)) (cuimg : CuImage)
    (dim : Nat → List Int) (field : String × Json) (hmem : field ∈ standard_fields cuimg)
    (h : (Json.object cm).get? field.1 = none) :
    (Json.object (merged_cucim cm rm cuimg dim)).get? field.1 = some field.2 := by
  simp only [standard_fields, List.mem_cons, List.mem_singleton, List.not_mem_nil,
    or_false] at hmem
  rcases hmem with rfl | rfl | rfl | rfl | rfl | rfl | rfl | rfl | rfl | rfl | rfl | rfl <;>
    simp only [merged_cucim, merged_cucim_head, get?_emplace_members] <;>
    rw [get?_assign_members_ne _ _ _ _ (by decide)] <;>
    simp [get?_emplace_members, h]

theorem merged_cucim_resolutions (cm rm : List (String × Json)) (cuimg : CuImage)
    (dim : Nat → List Int) :
    (Json.object (merged_cucim cm rm cuimg dim)).get? "resolutions" =
      some (Json.object (merged_resolutions rm cuimg.resolutions dim)) := by
  have hhead := get?_merged_cucim_head cm cuimg
  have hsome : ∃ x, (Json.object (merged_cucim_head cm cuimg)).get? "resolutions" = some x := by
    rw [hhead]
    cases (Json.object cm).get? "resolutions" with
    | none => exact ⟨_, rfl⟩
    | some x => exact ⟨x, rfl⟩
  obtain ⟨x, hx⟩ := hsome
  simp only [merged_cucim, get?_emplace_members,
    get?_assign_members_eq _ "resolutions" _ x hx, Option.or_some]

theorem merged_resolutions_keeps (rm : List (String × Json)) (r : Resolutions)
    (dim : Nat → List Int) (key : String) (value : Json)
    (h : (Json.object rm).get? key = some value) :
    (Json.object (merged_resolutions rm r dim)).get? key = some value := by
  simp [merged_resolutions, get?_emplace_members, h]

theorem merged_resolutions_adds (rm : List (String × Json)) (r : Resolutions)
    (dim : Nat → List Int) (field : String × Json) (hmem : field ∈ resolutions_fields r dim)
    (h : (Json.object rm).get? field.1 = none) :
    (Json.object (merged_resolutions rm r dim)).get? field.1 = some field.2 := by
  simp only [resolutions_fields, List.mem_cons, List.mem_singleton, List.not_mem_nil,
    or_false] at hmem
  rcases hmem with rfl | rfl | rfl <;>
    simp [merged_resolutions, get?_emplace_members, h]

/-- C5 (as amended): for every image handle whose raw metadata parses to an
object that already has a top-level `cucim` member (the accessor returning
`dim i` at each level `i < level_count`), `py_metadata` never overwrites.  If
the value under `cucim` is an object (or null, which `emplace` takes for the
empty object), the returned document has a `cucim` object in which every
member the native one already holds, other than `resolutions`, is kept as
stored, and in which a standardized field computed from the handle (`path`,
`ndim`, `dims`, `shape`, `dtype`, `channel_names`, `spacing`, `spacing_units`,
`origin`, `direction`, `coord_sys`, `associated_images`) is present with the
handle value only where the native object has no member of that name; its
`resolutions` member is treated the same way one level down; the other
top-level members are unchanged.  If the value under `cucim`, or a native
`resolutions` member, is neither an object nor null, the call fails with
`type_error` 311 before any level is queried. -/
theorem py_metadata_keeps_native (parse : String → Except Error Json) (cuimg : CuImage)
    (dim : Nat → List Int) (members : List (String × Json)) (native : Json)
    (hmeta : cuimg.metadata.isEmpty = false)
    (hparse : parse cuimg.metadata = Except.ok (Json.object members))
    (hcucim : (Json.object members).get? "cucim" = some native)
    (hdim : ∀ i, i < cuimg.resolutions.level_count →
      cuimg.resolutions.level_dimension i = Except.ok (dim i)) :
    (native_members (some native) = none →
      (py_metadata parse cuimg).run = (Except.error (Error.type_error 311), [])) ∧
    (∀ cm, native_members (some native) = some cm →
      (native_members ((Json.object cm).get? "resolutions") = none →
        (py_metadata parse cuimg).run = (Except.error (Error.type_error 311), [])) ∧
      (∀ rm, native_members ((Json.object cm).get? "resolutions") = some rm →
        ∃ document cj rj,
          (py_metadata parse cuimg).run.1 = Except.ok document ∧
          document.get? "cucim" = some (Json.object cj) ∧
          (∀ key, key ≠ "cucim" → document.get? key = (Json.object members).get? key) ∧
          (∀ key value, (Json.object cm).get? key = some value → key ≠ "resolutions" →
            (Json.object cj).get? key = some value) ∧
          (∀ field ∈ standard_fields cuimg, (Json.object cm).get? field.1 = none →
            (Json.object cj).get? field.1 = some field.2) ∧
          (Json.object cj).get? "resolutions" = some (Json.object rj) ∧
          (∀ key value, (Json.object rm).get? key = some value →
            (Json.object rj).get? key = some value) ∧
          (∀ field ∈ resolutions_fields cuimg.resolutions dim,
            (Json.object rm).get? field.1 = none →
            (Json.object rj).get? field.1 = some field.2))) := by
  refine ⟨fun hcm => py_metadata_cucim_not_object parse cuimg members native hmeta hparse
    hcucim hcm, fun cm hcm => ⟨fun hrm => py_metadata_resolutions_not_object parse cuimg
    members cm native hmeta hparse hcucim hcm hrm, fun rm hrm => ?_⟩⟩
  have hrun := py_metadata_closed_form parse cuimg dim members cm rm native hmeta hparse
    hcucim hcm hrm hdim
  refine ⟨(Json.object members).assign "cucim" (Json.object (merged_cucim cm rm cuimg dim)),
    merged_cucim cm rm cuimg dim, merged_resolutions rm cuimg.resolutions dim, ?_, ?_, ?_,
    ?_, ?_, ?_, ?_, ?_⟩
  · rw [hrun]
  · exact get?_assign_members_eq members "cucim" _ native hcucim
  · intro key hne
    exact get?_assign_members_ne members "cucim" _ key hne
  · exact fun key value h hne => merged_cucim_keeps cm rm cuimg dim key value h hne
  · exact fun field hmem h => merged_cucim_adds cm rm cuimg dim field hmem h
  · exact merged_cucim_resolutions cm rm cuimg dim
  · exact fun key value h => merged_resolutions_keeps rm cuimg.resolutions dim key value h
  · exact fun field hmem h => merged_resolutions_adds rm cuimg.resolutions dim field hmem h

/-- On the image whose raw metadata already holds `cucim.path = "native"`, the
returned document keeps that path and adds the `ndim` of the handle. -/
theorem py_metadata_keeps_native_witness :
    ∃ document cj,
      (py_metadata sample_parse native_image).run.1 = Except.ok document ∧
      document.get? "cucim" = some (Json.object cj) ∧
      (Json.object cj).get? "path" = some (Json.string "native") ∧
      (Json.object cj).get? "ndim" = some (Json.number_integer 3) := by
  obtain ⟨document, cj, rj, hrun, hcj, _, hkeep, hadd, _, _, _⟩ :=
    ((py_metadata_keeps_native sample_parse native_image
      (fun i => match i with
        | 0 => [1000, 2000, 3]
        | 1 => [500, 1000, 3]
        | _ => [])
      [("cucim", Json.object [("path", Json.string "native")])]
      (Json.object [("path", Json.string "native")])
      (by decide) (by simp [sample_parse, native_image, native_text]) (by simp [Json.get?])
      (fun i hi => by
        have hi2 : i < 2 := hi
        interval_cases i <;> rfl)).2
      [("path", Json.string "native")] rfl).2 [] (by simp [Json.get?, native_members])
  refine ⟨document, cj, hrun, hcj, ?_, ?_⟩
  · exact hkeep "path" (Json.string "native") (by simp [Json.get?]) (by decide)
  · exact hadd ("ndim", Json.number_integer 3) (by simp [standard_fields, native_image,
      sample_image]) (by simp [Json.get?])

/-- The raw metadata of `native_image` parses to an object with a top-level
`cucim` member, yet the `path` under `cucim` in the returned document is the
native one, not the path of the handle. -/
theorem py_metadata_overwrite_counterexample :
    sample_parse native_image.metadata =
      Except.ok (Json.object [("cucim", Json.object [("path", Json.string "native")])]) ∧
    ∃ document,
      (py_metadata sample_parse native_image).run.1 = Except.ok document ∧
      (document.element "cucim").get? "path" = some (Json.string "native") ∧
      (document.element "cucim").get? "path" ≠ some (Json.of_string native_image.path) := by
  have hparse : sample_parse native_image.metadata =
      Except.ok (Json.object [("cucim", Json.object [("path", Json.string "native")])]) := by
    simp [sample_parse, native_image, native_text]
  have hrun := py_metadata_closed_form sample_parse native_image
      (fun i => match i with
        | 0 => [1000, 2000, 3]
        | 1 => [500, 1000, 3]
        | _ => [])
      [("cucim", Json.object [("path", Json.string "native")])]
      [("path", Json.string "native")] [] (Json.object [("path", Json.string "native")])
      (by decide) hparse (by simp [Json.get?]) rfl (by simp [Json.get?, native_members])
      (fun i hi => by
        have hi2 : i < 2 := hi
        interval_cases i <;> rfl)
  refine ⟨hparse, _, by rw [hrun], ?_⟩
  have hpath : ((Json.object [("cucim", Json.object [("path", Json.string "native")])]).assign
      "cucim" (Json.object (merged_cucim [("path", Json.string "native")] [] native_image
        (fun i => match i with
          | 0 => [1000, 2000, 3]
          | 1 => [500, 1000, 3]
          | _ => [])))).element "cucim" =
      Json.object (merged_cucim [("path", Json.string "native")] [] native_image
        (fun i => match i with
          | 0 => [1000, 2000, 3]
          | 1 => [500, 1000, 3]
          | _ => [])) := by
    simp [Json.assign, assign_members, Json.element, Json.get?]
  rw [hpath, merged_cucim_keeps _ _ _ _ "path" (Json.string "native") (by simp [Json.get?])
    (by decide)]
  refine ⟨rfl, ?_⟩
  simp [Json.of_string, native_image, sample_image]

end cucim
